import Mathlib

/-
Verification of the automation-orchestration engine of the insta-scrapper
repository, against its natural-language specification.

Shallow-embedding conventions used throughout this development:

* JavaScript strings are modelled as Lean `String` or `List Char`; where the
  code manipulates UTF-8 byte buffers (the encryption module), plaintexts are
  modelled directly as byte lists (`List Nat`, each element < 256), since the
  UTF-8 encoding layer is a bijection handled entirely by the runtime.
* JavaScript numbers produced by `parseFloat` on digit/dot strings are
  modelled as exact rationals represented by an (integer part, fraction
  digits value, fraction length) triple; `Math.floor(num * mult)` is computed
  exactly in ℕ (`jsFloorMul`), and `jsFloorMul_eq_floor` proves this equals
  the mathematical floor of the rational product.  `NaN` is modelled as
  `none`.
* Randomness (`crypto.randomBytes`) is modelled by passing the random bytes
  as an explicit argument.
* The AES-256-CBC block cipher provided by node's crypto library is a
  parameter (`BlockCipher`); CBC chaining and PKCS#7 padding, which determine
  the byte-level behaviour of `cipher.update/final`, are modelled concretely.
* Database rows (Prisma models Account / Reel / Outreach / Log) are lists in
  a `DB` structure; Prisma calls in the worker become pure functions on `DB`.
* Browser interactions (Playwright calls) are outcomes supplied by an
  environment value per loop iteration (`IterEnv`, `OutreachEnv`, `RunEnv`);
  the control flow of the worker that consumes those outcomes is embedded
  faithfully from `src/backend/src/workers/playwrightBot.js`.
-/

namespace InstaScrape

/-! ## JavaScript string and number primitives -/

/-- Whitespace characters removed by `String.prototype.trim` (ASCII subset:
space, tab, LF, VT, FF, CR). -/
def jsIsWhitespace (c : Char) : Bool :=
  c.toNat = 32 || c.toNat = 9 || c.toNat = 10 || c.toNat = 13 || c.toNat = 11 || c.toNat = 12

/-- Model of `String.prototype.trim`. -/
def jsTrim (l : List Char) : List Char :=
  ((l.dropWhile jsIsWhitespace).reverse.dropWhile jsIsWhitespace).reverse

/-- Model of `String.prototype.toUpperCase` on one ASCII character. -/
def jsToUpperChar (c : Char) : Char :=
  if 'a' ≤ c && c ≤ 'z' then Char.ofNat (c.toNat - 32) else c

/-- Model of `String.prototype.toUpperCase` (ASCII). -/
def jsToUpper (l : List Char) : List Char := l.map jsToUpperChar

/-- Truthiness of a nullable JavaScript string: `null`/`undefined` and the
empty string are falsy. -/
def jsTruthy : Option String → Bool
  | none => false
  | some s => !(s == "")

/-- JavaScript `<` between a number that may be NaN (modelled as `none`) and
an integer: any comparison with NaN is false. -/
def jsLtOpt (x : Option Int) (m : Int) : Bool :=
  match x with
  | some v => decide (v < m)
  | none => false

/-- Value of a digit string (used by the `parseFloat` model). -/
def digitsVal (l : List Char) : Nat :=
  l.foldl (fun a c => 10 * a + (c.toNat - 48)) 0

/-- Model of JavaScript `parseFloat` restricted to strings of digits and
dots (the only strings it is applied to in `parseLikesCount`, after the
regex match).  Returns `(intPart, fracDigitsValue, fracDigitsCount)` for the
longest numeric prefix, i.e. the exact rational
`intPart + fracDigitsValue / 10 ^ fracDigitsCount`, or `none` for NaN. -/
def jsParseFloat (l : List Char) : Option (Nat × Nat × Nat) :=
  let ds := l.takeWhile Char.isDigit
  let rest := l.drop ds.length
  match rest with
  | '.' :: rest2 =>
    let fs := rest2.takeWhile Char.isDigit
    if ds.isEmpty && fs.isEmpty then none
    else some (digitsVal ds, digitsVal fs, fs.length)
  | _ => if ds.isEmpty then none else some (digitsVal ds, 0, 0)

/-- Exact value of `Math.floor(num * mult)` where `num` is the nonnegative
rational `i + f / 10 ^ l`: computed in ℕ as `i * mult + (f * mult) / 10 ^ l`.
`jsFloorMul_eq_floor` below proves this equals the mathematical floor. -/
def jsFloorMul (i f l mult : Nat) : Int := ((i * mult + (f * mult) / 10 ^ l : Nat) : Int)

/-- Embedding of `parseLikesCount` (playwrightBot.js lines 308-320):
trim, uppercase, strip commas, match `^([\d,.]+)([KM])?$`, `parseFloat` the
numeric group, multiply by the suffix factor and `Math.floor`.  The result
`none` models a `NaN` return value. -/
def parseLikesCount (text : Option String) : Option Int :=
  match text with
  | none => some 0
  | some s =>
    if s = "" then some 0
    else
      let t := jsToUpper (jsTrim s.toList)
      let clean := t.filter (fun c => c ≠ ',')
      let bodysuf : List Char × Option Char :=
        match clean.getLast? with
        | some 'K' => (clean.dropLast, some 'K')
        | some 'M' => (clean.dropLast, some 'M')
        | _ => (clean, none)
      let body := bodysuf.1
      if body.isEmpty || !(body.all (fun c => c.isDigit || c = '.' || c = ',')) then
        some 0
      else
        match jsParseFloat body with
        | none => none
        | some (i, f, l) =>
          let mult : Nat := match bodysuf.2 with
            | some 'M' => 1000000
            | some 'K' => 1000
            | _ => 1
          some (jsFloorMul i f l mult)

/-- Helper for the model of JavaScript `String.prototype.split` with a
one-character separator. -/
def jsSplitGo (sep : Char) : List Char → List Char → List (List Char)
  | [], acc => [acc.reverse]
  | c :: t, acc => if c = sep then acc.reverse :: jsSplitGo sep t [] else jsSplitGo sep t (c :: acc)

/-- Model of JavaScript `String.prototype.split` with a one-character
separator (as used by `encryptedPassword.split(':')`). -/
def jsSplit (l : List Char) (sep : Char) : List (List Char) := jsSplitGo sep l []

/-- Model of `String.prototype.includes`. -/
def strIncludes (s sub : String) : Bool := decide (sub.toList <:+: s.toList)

/-! ## Credential vault (src/backend/src/utils/encryption.js) -/

/-- Hex value of one character, or `none` for a non-hex character. -/
def hexVal? (c : Char) : Option Nat :=
  let n := c.toNat
  if 48 ≤ n && n ≤ 57 then some (n - 48)
  else if 97 ≤ n && n ≤ 102 then some (n - 87)
  else if 65 ≤ n && n ≤ 70 then some (n - 55)
  else none

/-- A character is a hex digit iff `hexVal?` accepts it. -/
def isHexChar (c : Char) : Bool := (hexVal? c).isSome

/-- Lower-case hex digit for a value below 16 (as produced by
`Buffer.prototype.toString('hex')`). -/
def toHexDigit (n : Nat) : Char :=
  if n < 10 then Char.ofNat (48 + n)
  else if n < 16 then Char.ofNat (87 + n)
  else '0'

/-- Two-character hex rendering of one byte. -/
def byteToHex (b : Nat) : List Char := [toHexDigit (b / 16), toHexDigit (b % 16)]

/-- Model of `Buffer.prototype.toString('hex')`. -/
def bytesToHexL (bs : List Nat) : List Char := (bs.map byteToHex).flatten

/-- Model of node's lenient `Buffer.from(str, 'hex')`: decodes two-character
pairs and truncates at the first invalid pair or dangling character. -/
def nodeHexDecode : List Char → List Nat
  | c1 :: c2 :: rest =>
    match hexVal? c1, hexVal? c2 with
    | some h, some lo => (16 * h + lo) :: nodeHexDecode rest
    | _, _ => []
  | _ => []

/-- Split a byte list into 16-byte blocks (the AES block size). -/
def chunk16 (l : List Nat) : List (List Nat) :=
  if h : l = [] then []
  else l.take 16 :: chunk16 (l.drop 16)
termination_by l.length
decreasing_by
  simp only [List.length_drop]
  have hp : 0 < l.length := List.length_pos.mpr h
  omega

/-- Bytewise xor of two equal-length blocks. -/
def xorBytes (a b : List Nat) : List Nat := List.zipWith Nat.xor a b

/-- PKCS#7 padding to a multiple of 16 bytes, as applied by node's
`cipher.update`/`cipher.final` with auto-padding (always adds 1..16 bytes). -/
def pkcs7pad (l : List Nat) : List Nat :=
  let k := 16 - l.length % 16
  l ++ List.replicate k k

/-- PKCS#7 unpadding with validation, as applied by `decipher.final`:
`none` models the "bad decrypt" exception. -/
def pkcs7unpad (l : List Nat) : Option (List Nat) :=
  match l.getLast? with
  | none => none
  | some k =>
    if 1 ≤ k && k ≤ 16 && k ≤ l.length && ((l.drop (l.length - k)).all (fun b => b = k)) then
      some (l.take (l.length - k))
    else none

/-- Abstract block cipher standing for node's AES-256 primitive: `enc key`
and `dec key` map one 16-byte block to one 16-byte block.  The inverse and
length/byte-range properties assumed of it appear as hypotheses of the
round-trip theorem. -/
structure BlockCipher where
  enc : List Nat → List Nat → List Nat
  dec : List Nat → List Nat → List Nat

/-- CBC encryption over a block list (chained from the IV). -/
def cbcEncBlocks (e : List Nat → List Nat) : List Nat → List (List Nat) → List (List Nat)
  | _, [] => []
  | prev, p :: ps =>
    let c := e (xorBytes p prev)
    c :: cbcEncBlocks e c ps

/-- CBC decryption over a block list (chained from the IV). -/
def cbcDecBlocks (d : List Nat → List Nat) : List Nat → List (List Nat) → List (List Nat)
  | _, [] => []
  | prev, c :: cs => xorBytes (d c) prev :: cbcDecBlocks d c cs

/-- Cause tags distinguishing the throw sites of the encryption module; the
code wraps every one of them into an `Encryption failed:` / `Decryption
failed:` `Error`. -/
inductive CryptoErr
  | badFormat
  | badKeyLength
  | badIv
  | badBlockLength
  | badPadding
deriving DecidableEq

/-- Result of a vault function: an exception, the JavaScript `null` return
for falsy input, or a value. -/
inductive CryptoOut (α : Type)
  | thrown (e : CryptoErr)
  | nullVal
  | val (v : α)
deriving DecidableEq

/-- Embedding of `encryptPassword` (encryption.js lines 30-50): falsy
password returns null; the key must decode to 32 bytes; output is
`hex(iv) ++ ":" ++ hex(ciphertext)` where the ciphertext is the CBC
encryption of the PKCS#7-padded password bytes.  The fresh
`crypto.randomBytes(16)` IV of each call is the explicit `iv` argument. -/
def encryptPassword (E : BlockCipher) (keyHex : List Char) (iv : List Nat)
    (password : List Nat) : CryptoOut (List Char) :=
  if password.isEmpty then .nullVal
  else
    let keyBuffer := nodeHexDecode keyHex
    if keyBuffer.length ≠ 32 then .thrown .badKeyLength
    else
      let ct := (cbcEncBlocks (E.enc keyBuffer) iv (chunk16 (pkcs7pad password))).flatten
      .val (bytesToHexL iv ++ ':' :: bytesToHexL ct)

/-- Embedding of `decryptPassword` (encryption.js lines 55-79): falsy input
returns null; the blob must split on `:` into exactly two parts; the key
must decode to 32 bytes; `createDecipheriv` requires a 16-byte IV;
`decipher.final` requires whole blocks and valid PKCS#7 padding. -/
def decryptPassword (E : BlockCipher) (keyHex : List Char) (blob : List Char) :
    CryptoOut (List Nat) :=
  if blob.isEmpty then .nullVal
  else
    let parts := jsSplit blob ':'
    if parts.length ≠ 2 then .thrown .badFormat
    else
      let iv := nodeHexDecode (parts.getD 0 [])
      let encBytes := nodeHexDecode (parts.getD 1 [])
      let keyBuffer := nodeHexDecode keyHex
      if keyBuffer.length ≠ 32 then .thrown .badKeyLength
      else if iv.length ≠ 16 then .thrown .badIv
      else if encBytes.length % 16 ≠ 0 then .thrown .badBlockLength
      else
        match pkcs7unpad ((cbcDecBlocks (E.dec keyBuffer) iv (chunk16 encBytes)).flatten) with
        | some pt => .val pt
        | none => .thrown .badPadding

/-- The placeholder value recognized at module load. -/
def ENCRYPTION_KEY_PLACEHOLDER : List Char :=
  "change-this-to-a-random-64-character-hex-string".toList

/-- Embedding of the module-load key normalization (encryption.js lines
5-22): a missing, empty or placeholder configured key is replaced by the hex
rendering of 32 random bytes (the explicit `randomKeyHex` argument), then the
result is padded with `'0'` or truncated to exactly 64 characters. -/
def normalizeEncryptionKey (envKey : Option (List Char)) (randomKeyHex : List Char) :
    List Char :=
  let k := match envKey with
    | none => randomKeyHex
    | some s => if s = [] || s = ENCRYPTION_KEY_PLACEHOLDER then randomKeyHex else s
  if k.length = 64 then k
  else if k.length < 64 then k ++ List.replicate (64 - k.length) '0'
  else k.take 64

/-- A concrete block cipher instance (the identity permutation) used to
instantiate witnesses. -/
def idCipher : BlockCipher := ⟨fun _ b => b, fun _ b => b⟩

/-! ## Data model (Prisma rows) and database state -/

/-- Account lifecycle status (`ACCOUNT_STATUS` in config/constants.js). -/
inductive Status
  | idle
  | running
  | paused
  | error
  | stopped
deriving DecidableEq

/-- Account row (fields used by the worker and controllers). -/
structure Account where
  id : Nat
  username : String
  status : Status
  outreachMessage : String
  lastActive : Nat
deriving DecidableEq

/-- Reel row (ContentItem).  `views` holds the parsed like count, which can
be NaN in the code, hence `Option Int`; `reelUrl` is nullable. -/
structure Reel where
  id : Nat
  accountId : Nat
  reelUrl : Option String
  views : Option Int
  isAd : Bool
  isLive : Bool
deriving DecidableEq

/-- Outreach row (OutreachRecord). -/
structure OutreachRow where
  id : Nat
  reelId : Nat
  targetUser : String
  message : List Char
  sent : Bool
  sentAt : Option Nat
deriving DecidableEq

/-- Log row (LogEntry), written through `saveLogToDB`. -/
structure LogRow where
  accountId : Nat
  level : String
  message : String
deriving DecidableEq

/-- Database state: the rows of the four tables plus id counters. -/
structure DB where
  accounts : List Account
  reels : List Reel
  outreach : List OutreachRow
  logs : List LogRow
  nextReelId : Nat
  nextOutreachId : Nat
deriving DecidableEq

/-- Model of `prisma.account.findUnique({ where: { id } })`. -/
def findUniqueAccount (db : DB) (id : Nat) : Option Account :=
  db.accounts.find? (fun a => a.id == id)

/-- Model of `prisma.account.update` setting fields with `f`; a no-op when
the row is absent (the code wraps such calls in try/catch). -/
def updateAccount (db : DB) (id : Nat) (f : Account → Account) : DB :=
  { db with accounts := db.accounts.map (fun a => if a.id == id then f a else a) }

/-- Model of `saveLogToDB` (dbLogger): appends a log row and never throws. -/
def saveLogToDB (db : DB) (accountId : Nat) (level message : String) : DB :=
  { db with logs := db.logs ++ [⟨accountId, level, message⟩] }

/-- Model of `prisma.reel.findFirst({ where: { accountId, reelUrl } })`. -/
def findFirstReel (db : DB) (accountId : Nat) (reelUrl : Option String) : Option Reel :=
  db.reels.find? (fun r => r.accountId == accountId && r.reelUrl == reelUrl)

/-- Model of `prisma.reel.create` in collectReels (line 1406): flags are
hard-coded false. -/
def createReelRow (db : DB) (accountId : Nat) (reelUrl : Option String) (views : Option Int) :
    DB × Reel :=
  let r : Reel := ⟨db.nextReelId, accountId, reelUrl, views, false, false⟩
  ({ db with reels := db.reels ++ [r], nextReelId := db.nextReelId + 1 }, r)

/-- Model of `prisma.outreach.findFirst({ where: { reelId, targetUser } })`. -/
def findFirstOutreach (db : DB) (reelId : Nat) (targetUser : String) : Option OutreachRow :=
  db.outreach.find? (fun o => o.reelId == reelId && o.targetUser == targetUser)

/-- Model of `prisma.outreach.create` in processReelOutreach (line 1290). -/
def createOutreachRow (db : DB) (reelId : Nat) (targetUser : String) (message : List Char)
    (sent : Bool) (now : Nat) : DB :=
  { db with
    outreach := db.outreach ++
      [⟨db.nextOutreachId, reelId, targetUser, message, sent, if sent then some now else none⟩],
    nextOutreachId := db.nextOutreachId + 1 }

/-! ## Extraction, navigation and outreach (playwrightBot.js) -/

/-- Configured qualification threshold, `REEL_FILTERS.MIN_LIKES`
(config/constants.js line 33). -/
def REEL_FILTERS_MIN_LIKES : Int := 100000

/-- Maximum reels per collection run (`maxReels`, line 1322). -/
def MAX_REELS : Nat := 50

/-- Result of `extractCurrentReelInfo`: all fields are nullable. -/
structure ExtractInfo where
  username : Option String
  likesText : Option String
  url : Option String
  uniqueId : Option String
deriving DecidableEq

/-- Browser outcomes consumed by one `processReelOutreach` call: whether the
profile navigation, Message-button click, composer lookup, send click,
back-button return and fallback navigation succeed. -/
structure OutreachEnv where
  navOk : Bool
  messageClicked : Bool
  inputFound : Bool
  sendClicked : Bool
  backOk : Bool
  fallbackNavOk : Bool
deriving DecidableEq

/-- Return value of `processReelOutreach`. -/
structure POResult where
  success : Bool
  sent : Bool
deriving DecidableEq

/-- Embedding of `processReelOutreach` (lines 1097-1299).  Control flow from
the source: any failed step raises into the catch block, which logs and
returns `success := false` without writing any row; a successful back-button
return to the reels feed returns early at line 1278 — before the
`prisma.outreach.create` at line 1290 — so a row is written only on the
fallback-navigation path, and only when the reel row is found. -/
def processReelOutreach (db : DB) (acct : Account) (reelUrl : Option String)
    (username : String) (e : OutreachEnv) (now : Nat) : DB × POResult :=
  let db := saveLogToDB db acct.id "info" "Outreach start"
  if !e.navOk then (saveLogToDB db acct.id "error" "Outreach failed", ⟨false, false⟩)
  else if !e.messageClicked then
    (saveLogToDB db acct.id "error" "Outreach failed", ⟨false, false⟩)
  else if !e.inputFound then
    (saveLogToDB db acct.id "error" "Outreach failed", ⟨false, false⟩)
  else
    let msg := jsTrim acct.outreachMessage.toList
    if msg.isEmpty then (saveLogToDB db acct.id "error" "Outreach failed", ⟨false, false⟩)
    else
      let sent := e.sendClicked
      if e.backOk then
        (saveLogToDB db acct.id "info" "Successfully returned to reels page via back button",
         ⟨true, sent⟩)
      else if !e.fallbackNavOk then
        (saveLogToDB db acct.id "error" "Outreach failed", ⟨false, false⟩)
      else
        let db :=
          match findFirstReel db acct.id reelUrl with
          | some reel => createOutreachRow db reel.id username msg sent now
          | none => db
        (db, ⟨true, sent⟩)

/-- Model of the reel-id regex `/\/reels?\/([^\/?#]+)/`: the capture group. -/
def reelIdCapture (l : List Char) : Option (List Char) :=
  let cap := l.takeWhile (fun c => !(c = '/' || c = '?' || c = '#'))
  if cap.isEmpty then none else some cap

/-- Attempt the reel-id regex at the head of the list. -/
def reelIdAt : List Char → Option (List Char)
  | '/' :: 'r' :: 'e' :: 'e' :: 'l' :: rest =>
    (match rest with
     | 's' :: '/' :: r2 => reelIdCapture r2
     | '/' :: r2 => reelIdCapture r2
     | _ => none)
  | _ => none

/-- Scan for the first match of the reel-id regex. -/
def reelIdScan : List Char → Option (List Char)
  | [] => none
  | c :: t =>
    match reelIdAt (c :: t) with
    | some r => some r
    | none => reelIdScan t

/-- Model of `url.match(/\/reels?\/([^\/?#]+)/)?.[1]`. -/
def reelIdOfUrl (u : String) : Option String :=
  (reelIdScan u.toList).map (fun l => String.mk l)

/-- Embedding of the URL-mismatch re-extraction block of collectReels
(lines 1358-1381): when the extracted reel id disagrees with the current
URL's reel id, a second extraction replaces the first if it agrees. -/
def resolveInfo (currentUrl : String) (info info2 : ExtractInfo) : ExtractInfo :=
  if jsTruthy info.url && strIncludes currentUrl "/reels/" then
    match (info.url.getD "") |> reelIdOfUrl, reelIdOfUrl currentUrl with
    | some e1, some c1 =>
      if e1 ≠ c1 then
        if jsTruthy info2.url then
          if reelIdOfUrl (info2.url.getD "") = some c1 then info2 else info
        else info
      else info
    | _, _ => info
  else info

/-- Browser outcomes consumed by one iteration of the collection loop. -/
structure IterEnv where
  likesText : Option String
  pageUrl : String
  info : ExtractInfo
  info2 : ExtractInfo
  oenv : OutreachEnv
  scrollOk : Bool
deriving DecidableEq

/-- Local mutable state of the collection loop. -/
structure LoopState where
  reelCount : Nat
  consecutiveFailures : Nat
  seen : List String
  created : Nat
deriving DecidableEq

/-- Why the collection loop stopped.  `exhausted` is a model artifact: the
supplied environment list ran out (the loop is observed for finitely many
iterations). -/
inductive StopReason
  | exhausted
  | notRunning
  | tooManyFailures
  | maxReels
deriving DecidableEq

/-- Shared post-scroll counter update (lines 1345, 1387, 1395, 1439-1445):
a successful advance resets the failure counter and counts the reel, a
failed advance increments the failure counter. -/
def scrollUpd (st : LoopState) (ok : Bool) : LoopState :=
  if ok then { st with consecutiveFailures := 0, reelCount := st.reelCount + 1 }
  else { st with consecutiveFailures := st.consecutiveFailures + 1 }

/-- Embedding of the qualified-item part of one collectReels iteration
(lines 1399-1434): mark the item seen, reset the failure counter, find or
create the reel row, then check the outreach de-duplication guard and run
processReelOutreach when no record exists. -/
def collectQualified (acct : Account) (info : ExtractInfo) (oenv : OutreachEnv)
    (st : LoopState) (db : DB) (now : Nat) : DB × LoopState :=
  let st := { st with seen := (info.uniqueId.getD "") :: st.seen, consecutiveFailures := 0 }
  let parsedLikes := parseLikesCount info.likesText
  let dbreel : DB × Reel × Bool :=
    match findFirstReel db acct.id info.url with
    | some r => (db, r, false)
    | none =>
      let p := createReelRow db acct.id info.url parsedLikes
      (p.1, p.2, true)
  let db2 := dbreel.1
  let reel := dbreel.2.1
  let st := if dbreel.2.2 then { st with created := st.created + 1 } else st
  let db3 :=
    match findFirstOutreach db2 reel.id (info.username.getD "") with
    | some _ => saveLogToDB db2 acct.id "info" "Already sent outreach, skipping"
    | none => (processReelOutreach db2 acct info.url (info.username.getD "") oenv now).1
  (db3, st)

/-- Embedding of one body execution of the collectReels while-loop
(lines 1334-1445), after the status and failure-budget checks. -/
def collectIter (acct : Account) (e : IterEnv) (st : LoopState) (db : DB) (now : Nat) :
    DB × LoopState :=
  let db := saveLogToDB db acct.id "info" "Waiting 1000ms before extraction"
  let likes := parseLikesCount e.likesText
  if !(jsTruthy e.likesText) || jsLtOpt likes REEL_FILTERS_MIN_LIKES then
    let db := saveLogToDB db acct.id "info" "Reel below threshold, skipping"
    (db, scrollUpd st e.scrollOk)
  else
    let db := saveLogToDB db acct.id "info" "Reel qualifies, extracting full info"
    let info := resolveInfo e.pageUrl e.info e.info2
    if !(jsTruthy info.uniqueId) || !(jsTruthy info.username) || !(jsTruthy info.likesText) then
      (saveLogToDB db acct.id "warn" "Invalid extraction, scrolling to next",
       scrollUpd st e.scrollOk)
    else if st.seen.contains (info.uniqueId.getD "") then
      (saveLogToDB db acct.id "info" "Already seen, scrolling to next", scrollUpd st e.scrollOk)
    else
      let r := collectQualified acct info e.oenv st db now
      (r.1, scrollUpd r.2 e.scrollOk)

/-- Embedding of the collectReels while-loop (lines 1325-1446): on each
iteration it re-reads the account status (break when not `running`), breaks
after three consecutive advance failures, otherwise runs the body. -/
def collectLoop (acct : Account) : List IterEnv → LoopState → DB → Nat →
    DB × LoopState × StopReason
  | [], st, db, _ => (db, st, .exhausted)
  | e :: rest, st, db, now =>
    if st.reelCount < MAX_REELS then
      if !((findUniqueAccount db acct.id).map Account.status == some Status.running) then
        (db, st, .notRunning)
      else if st.consecutiveFailures ≥ 3 then
        (saveLogToDB db acct.id "warn" "Too many consecutive failures", st, .tooManyFailures)
      else
        let (db2, st2) := collectIter acct e st db now
        collectLoop acct rest st2 db2 now
    else (db, st, .maxReels)

/-- Errors that abort a run (`runPlaywrightBot` rethrows them to the job
handler). -/
inductive BotErr
  | launchOrLogin
  | noVideo
deriving DecidableEq

/-- Result of `collectReels`/`runPlaywrightBot`. -/
inductive RunResult
  | err (e : BotErr)
  | ok (reelsCollected : Nat) (reason : StopReason)
deriving DecidableEq

/-- Embedding of `collectReels` (lines 1301-1450): navigate to the reels
feed, fail the run if no video is present, then run the loop; the loop
result is returned normally whatever the stop reason. -/
def collectReels (db : DB) (acct : Account) (videoOk : Bool) (envs : List IterEnv)
    (now : Nat) : DB × RunResult :=
  let db := saveLogToDB db acct.id "info" "Starting collectReels"
  if !videoOk then
    (saveLogToDB db acct.id "error" "No video found on reels page", .err .noVideo)
  else
    let db := saveLogToDB db acct.id "info" "Reels page loaded with video content"
    let r := collectLoop acct envs ⟨0, 0, [], 0⟩ db now
    (saveLogToDB r.1 acct.id "info" "collectReels finished", .ok r.2.1.created r.2.2)

/-- Browser outcomes for one whole run: whether display/browser/login and
session verification succeed, whether the reels feed shows a video, and the
per-iteration outcomes. -/
structure RunEnv where
  sessionOk : Bool
  videoOk : Bool
  iters : List IterEnv
deriving DecidableEq

/-- Embedding of `runPlaywrightBot` (lines 1452-1544): display and session
setup, then collectReels; any raised error is logged and rethrown. -/
def runPlaywrightBot (db : DB) (acct : Account) (env : RunEnv) (now : Nat) : DB × RunResult :=
  let db := saveLogToDB db acct.id "info" "Bot started"
  if !env.sessionOk then
    (saveLogToDB db acct.id "error" "Bot error", .err .launchOrLogin)
  else
    match collectReels db acct env.videoOk env.iters now with
    | (db2, .err e) => (saveLogToDB db2 acct.id "error" "Bot error", .err e)
    | (db2, .ok n reason) =>
      (saveLogToDB db2 acct.id "info" "Bot finished", .ok n reason)

/-- Job-handler outcome. -/
inductive JobOutcome
  | stoppedEarly (reason : Status)
  | completed (reelsCollected : Nat) (reason : StopReason)
deriving DecidableEq

/-- Job-handler error (rethrown so the queue's retry policy applies). -/
inductive JobErr
  | accountNotFound
  | bot (e : BotErr)
deriving DecidableEq

/-- Job-handler result: the thrown error or the returned outcome. -/
inductive JobResult
  | failed (e : JobErr)
  | ok (o : JobOutcome)
deriving DecidableEq

/-- Full result of one job-handler execution: final database, returned or
thrown result, and whether `runPlaywrightBot` was invoked at all. -/
structure HandlerResult where
  db : DB
  result : JobResult
  ranBot : Bool
deriving DecidableEq

/-- Embedding of the botWorker job handler (workers/botWorker.js): re-read
the account; a missing account throws (the catch block then logs and tries
to set status `error`, which fails for a missing row); a non-`running`
status returns immediately; otherwise run the bot, update `lastActive` on
success, or log, set status `error` and rethrow on failure. -/
def botHandler (db : DB) (accountId : Nat) (env : RunEnv) (now : Nat) : HandlerResult :=
  match findUniqueAccount db accountId with
  | none =>
    let db := saveLogToDB db accountId "error" "Bot job failed: Account not found"
    ⟨db, .failed .accountNotFound, false⟩
  | some acct =>
    if acct.status ≠ Status.running then ⟨db, .ok (.stoppedEarly acct.status), false⟩
    else
      match runPlaywrightBot db acct env now with
      | (db2, .ok n reason) =>
        let db3 := updateAccount db2 accountId (fun a => { a with lastActive := now })
        ⟨db3, .ok (.completed n reason), true⟩
      | (db2, .err e) =>
        let db3 := saveLogToDB db2 accountId "error" "Bot job failed"
        let db4 := updateAccount db3 accountId (fun a => { a with status := Status.error })
        ⟨db4, .failed (.bot e), true⟩

/-! ## Start-account controller (controllers/accountController.js) -/

/-- A queued job (BullMQ payload `{ accountId, username }`). -/
structure Job where
  accountId : Nat
  username : String
deriving DecidableEq

/-- Persistent world visible to the controller: the database plus the job
queue. -/
structure World where
  db : DB
  queue : List Job
deriving DecidableEq

/-- Observable ordered effects of the start-account endpoint. -/
inductive Ev
  | statusWrite (accountId : Nat) (st : Status)
  | enqueue (accountId : Nat)
deriving DecidableEq

/-- HTTP-level outcome of the start-account endpoint. -/
inductive StartResp
  | notFound
  | alreadyRunning
  | started
deriving DecidableEq

/-- Embedding of `startAccount` (accountController.js lines 170-213): 404
when the account is missing, 400 when already running; otherwise the status
is set to `running` (and `lastActive` refreshed) strictly before the job is
appended to the queue.  The display initialization between the two steps has
no persistent effect.  The returned event list records the effect order. -/
def startAccount (w : World) (id : Nat) (now : Nat) : World × StartResp × List Ev :=
  match findUniqueAccount w.db id with
  | none => (w, .notFound, [])
  | some account =>
    if account.status = Status.running then (w, .alreadyRunning, [])
    else
      let db := updateAccount w.db account.id
        (fun a => { a with status := Status.running, lastActive := now })
      let queue := w.queue ++ [⟨account.id, account.username⟩]
      (⟨db, queue⟩, .started, [.statusWrite account.id Status.running, .enqueue account.id])

end InstaScrape

namespace InstaScrape

/-! ## Supporting lemmas: numeric parsing -/

theorem jsFloorMul_eq_floor (i f l mult : Nat) :
    jsFloorMul i f l mult = Int.floor ((((i : ℚ) + (f : ℚ) / (10 : ℚ) ^ l)) * (mult : ℚ)) := by
  have hexpr : (((i : ℚ) + (f : ℚ) / (10 : ℚ) ^ l)) * (mult : ℚ)
      = ((i * mult : ℕ) : ℚ) + ((f * mult : ℕ) : ℚ) / ((10 ^ l : ℕ) : ℚ) := by
    push_cast; ring
  have hq : (0 : ℚ) ≤ ((f * mult : ℕ) : ℚ) / ((10 ^ l : ℕ) : ℚ) := by positivity
  rw [jsFloorMul, hexpr, Int.floor_nat_add]
  have hfl : ⌊((f * mult : ℕ) : ℚ) / ((10 ^ l : ℕ) : ℚ)⌋ = ((f * mult / 10 ^ l : ℕ) : ℤ) := by
    rw [← Int.natCast_floor_eq_floor hq, Nat.floor_div_nat, Nat.floor_natCast]
  rw [hfl]
  push_cast
  ring

theorem parseLikesCount_nonneg (t : Option String) :
    parseLikesCount t = none ∨ ∃ n : Int, parseLikesCount t = some n ∧ 0 ≤ n := by
  match t with
  | none => exact Or.inr ⟨0, rfl, by norm_num⟩
  | some s =>
    simp only [parseLikesCount]
    split
    · exact Or.inr ⟨0, rfl, by norm_num⟩
    · split
      · exact Or.inr ⟨0, rfl, by norm_num⟩
      · split
        · exact Or.inl rfl
        · rename_i i f l heq
          exact Or.inr ⟨_, rfl, Int.natCast_nonneg _⟩

end InstaScrape

namespace InstaScrape

/-! ## Claim C7: numeric metric parser -/

/-- The character class of the regex numeric group `[\\d,.]`. -/
def likesTokenChar (c : Char) : Bool := c.isDigit || c = '.' || c = ','

/-- The cleaned text the regex is applied to: trimmed, uppercased, commas
removed (lines 310-312). -/
def cleanedLikesText (s : String) : List Char :=
  (jsToUpper (jsTrim s.toList)).filter (fun c => c ≠ ',')

/-- Semantic rendering of the regex `^([\\d,.]+)([KM])?$`: the text splits
into a non-empty numeric group followed by an optional K or M suffix. -/
def likesPatternMatch (l : List Char) : Prop :=
  ∃ body suf : List Char, l = body ++ suf ∧ body ≠ [] ∧
    (∀ c ∈ body, likesTokenChar c = true) ∧ (suf = [] ∨ suf = ['K'] ∨ suf = ['M'])

/-- The multiplier selected by the suffix group. -/
def multOf : List Char → Nat
  | ['K'] => 1000
  | ['M'] => 1000000
  | _ => 1

theorem dropLast_append_of_getLast? {α : Type} (l : List α) (a : α)
    (h : l.getLast? = some a) : l.dropLast ++ [a] = l := by
  induction l with
  | nil => simp at h
  | cons x xs ih =>
    cases xs with
    | nil =>
      simp at h
      subst h
      simp
    | cons y ys =>
      rw [List.getLast?_cons_cons] at h
      have := ih h
      simp only [List.dropLast_cons₂, List.cons_append]
      rw [this]

theorem parseLikesCount_eq_of_decomp (s : String) (body suf : List Char) (hne : s ≠ "")
    (hdec : cleanedLikesText s = body ++ suf) (hbody : body ≠ [])
    (hall : ∀ c ∈ body, likesTokenChar c = true)
    (hsuf : suf = [] ∨ suf = ['K'] ∨ suf = ['M']) :
    parseLikesCount (some s) =
      (match jsParseFloat body with
       | none => none
       | some (i, f, l) => some (jsFloorMul i f l (multOf suf))) := by
  have hbe : body.isEmpty = false := by
    cases body with
    | nil => exact absurd rfl hbody
    | cons c t => rfl
  have hba : body.all (fun c => c.isDigit || c = '.' || c = ',') = true :=
    List.all_eq_true.mpr hall
  have hclean : (jsToUpper (jsTrim s.toList)).filter (fun c => c ≠ ',') = body ++ suf := hdec
  simp only [parseLikesCount]
  rw [if_neg hne]
  rw [hclean]
  rcases hsuf with rfl | rfl | rfl
  · rw [List.append_nil]
    have hlast : ∀ c, body.getLast? = some c → likesTokenChar c = true := by
      intro c hc
      have hmem : c ∈ body := by
        rw [← dropLast_append_of_getLast? body c hc]
        simp
      exact hall c hmem
    cases hl : body.getLast? with
    | none =>
      exact absurd (by simpa using hl) hbody
    | some c =>
      have hK : c ≠ 'K' := by
        intro hcon
        subst hcon
        have := hlast 'K' hl
        simp [likesTokenChar] at this
      have hM : c ≠ 'M' := by
        intro hcon
        subst hcon
        have := hlast 'M' hl
        simp [likesTokenChar] at this
      have hpair : (match some c with
          | some 'K' => (body.dropLast, some 'K')
          | some 'M' => (body.dropLast, some 'M')
          | _ => (body, (none : Option Char))) = (body, none) := by
        split
        next heq => exact absurd (Option.some.inj heq) hK
        next heq => exact absurd (Option.some.inj heq) hM
        next => rfl
      rw [hpair]
      rw [if_neg (by simp [hbe, hba])]
      rfl
  · have hpair : (match (body ++ ['K']).getLast? with
        | some 'K' => ((body ++ ['K']).dropLast, some 'K')
        | some 'M' => ((body ++ ['K']).dropLast, some 'M')
        | _ => ((body ++ ['K']), (none : Option Char))) = (body, some 'K') := by
      rw [List.getLast?_concat]
      simp [List.dropLast_concat]
    rw [hpair]
    rw [if_neg (by simp [hbe, hba])]
    rfl
  · have hpair : (match (body ++ ['M']).getLast? with
        | some 'K' => ((body ++ ['M']).dropLast, some 'K')
        | some 'M' => ((body ++ ['M']).dropLast, some 'M')
        | _ => ((body ++ ['M']), (none : Option Char))) = (body, some 'M') := by
      rw [List.getLast?_concat]
      simp [List.dropLast_concat]
    rw [hpair]
    rw [if_neg (by simp [hbe, hba])]
    rfl

theorem parseLikesCount_nomatch (s : String) (hne : s ≠ "")
    (hnom : ¬ likesPatternMatch (cleanedLikesText s)) :
    parseLikesCount (some s) = some 0 := by
  simp only [parseLikesCount]
  rw [if_neg hne]
  have hnom2 : ¬ likesPatternMatch ((jsToUpper (jsTrim s.toList)).filter (fun c => c ≠ ',')) :=
    hnom
  cases hl : ((jsToUpper (jsTrim s.toList)).filter (fun c => c ≠ ',')).getLast? with
  | none =>
    have hclnil : (jsToUpper (jsTrim s.toList)).filter (fun c => c ≠ ',') = [] := by
      simpa using hl
    rw [if_pos (by rw [hclnil]; decide)]
  | some c =>
    by_cases hK : c = 'K'
    · subst hK
      have hpair : (match some 'K' with
          | some 'K' => (((jsToUpper (jsTrim s.toList)).filter (fun c => c ≠ ',')).dropLast,
              some 'K')
          | some 'M' => (((jsToUpper (jsTrim s.toList)).filter (fun c => c ≠ ',')).dropLast,
              some 'M')
          | _ => ((jsToUpper (jsTrim s.toList)).filter (fun c => c ≠ ','),
              (none : Option Char)))
          = (((jsToUpper (jsTrim s.toList)).filter (fun c => c ≠ ',')).dropLast,
              some 'K') := by
        rfl
      rw [hpair]
      by_cases hguard : ((((jsToUpper (jsTrim s.toList)).filter
          (fun c => c ≠ ',')).dropLast).isEmpty
          || !((((jsToUpper (jsTrim s.toList)).filter (fun c => c ≠ ',')).dropLast).all
            (fun c => c.isDigit || c = '.' || c = ','))) = true
      · rw [if_pos hguard]
      · exfalso
        apply hnom2
        rw [Bool.or_eq_true, not_or, Bool.not_eq_true, Bool.not_eq_true,
          Bool.not_eq_false'] at hguard
        refine ⟨((jsToUpper (jsTrim s.toList)).filter (fun c => c ≠ ',')).dropLast, ['K'],
          (dropLast_append_of_getLast? _ 'K' hl).symm, ?_, ?_, Or.inr (Or.inl rfl)⟩
        · intro hcon
          rw [hcon] at hguard
          simp at hguard
        · exact List.all_eq_true.mp hguard.2
    · by_cases hM : c = 'M'
      · subst hM
        have hpair : (match some 'M' with
            | some 'K' => (((jsToUpper (jsTrim s.toList)).filter (fun c => c ≠ ',')).dropLast,
                some 'K')
            | some 'M' => (((jsToUpper (jsTrim s.toList)).filter (fun c => c ≠ ',')).dropLast,
                some 'M')
            | _ => ((jsToUpper (jsTrim s.toList)).filter (fun c => c ≠ ','),
                (none : Option Char)))
            = (((jsToUpper (jsTrim s.toList)).filter (fun c => c ≠ ',')).dropLast,
                some 'M') := by
          rfl
        rw [hpair]
        by_cases hguard : ((((jsToUpper (jsTrim s.toList)).filter
            (fun c => c ≠ ',')).dropLast).isEmpty
            || !((((jsToUpper (jsTrim s.toList)).filter (fun c => c ≠ ',')).dropLast).all
              (fun c => c.isDigit || c = '.' || c = ','))) = true
        · rw [if_pos hguard]
        · exfalso
          apply hnom2
          rw [Bool.or_eq_true, not_or, Bool.not_eq_true, Bool.not_eq_true,
            Bool.not_eq_false'] at hguard
          refine ⟨((jsToUpper (jsTrim s.toList)).filter (fun c => c ≠ ',')).dropLast, ['M'],
            (dropLast_append_of_getLast? _ 'M' hl).symm, ?_, ?_, Or.inr (Or.inr rfl)⟩
          · intro hcon
            rw [hcon] at hguard
            simp at hguard
          · exact List.all_eq_true.mp hguard.2
      · have hpair : (match some c with
            | some 'K' => (((jsToUpper (jsTrim s.toList)).filter (fun c => c ≠ ',')).dropLast,
                some 'K')
            | some 'M' => (((jsToUpper (jsTrim s.toList)).filter (fun c => c ≠ ',')).dropLast,
                some 'M')
            | _ => ((jsToUpper (jsTrim s.toList)).filter (fun c => c ≠ ','),
                (none : Option Char)))
            = ((jsToUpper (jsTrim s.toList)).filter (fun c => c ≠ ','), none) := by
          split
          next heq => exact absurd (Option.some.inj heq) hK
          next heq => exact absurd (Option.some.inj heq) hM
          next => rfl
        rw [hpair]
        by_cases hguard : (((jsToUpper (jsTrim s.toList)).filter (fun c => c ≠ ',')).isEmpty
            || !(((jsToUpper (jsTrim s.toList)).filter (fun c => c ≠ ',')).all
              (fun c => c.isDigit || c = '.' || c = ','))) = true
        · rw [if_pos hguard]
        · exfalso
          apply hnom2
          rw [Bool.or_eq_true, not_or, Bool.not_eq_true, Bool.not_eq_true,
            Bool.not_eq_false'] at hguard
          refine ⟨(jsToUpper (jsTrim s.toList)).filter (fun c => c ≠ ','), [],
            (List.append_nil _).symm, ?_, ?_, Or.inl rfl⟩
          · intro hcon
            rw [hcon] at hguard
            simp at hguard
          · exact List.all_eq_true.mp hguard.2

theorem parseLikesCount_other_suffix (s : String) (pre : List Char) (c : Char) (hne : s ≠ "")
    (hdec : cleanedLikesText s = pre ++ [c]) (hc : likesTokenChar c = false)
    (hK : c ≠ 'K') (hM : c ≠ 'M') :
    parseLikesCount (some s) = some 0 := by
  apply parseLikesCount_nomatch s hne
  rintro ⟨b, sf, hd, hb, ha, hs⟩
  rw [hdec] at hd
  rcases hs with rfl | rfl | rfl
  · rw [List.append_nil] at hd
    have hmem : c ∈ b := by
      rw [← hd]
      simp
    have := ha c hmem
    rw [this] at hc
    exact Bool.true_eq_false.mp hc
  · have hlst := congrArg List.getLast? hd
    rw [List.getLast?_concat, List.getLast?_concat] at hlst
    exact hK (Option.some.inj hlst)
  · have hlst := congrArg List.getLast? hd
    rw [List.getLast?_concat, List.getLast?_concat] at hlst
    exact hM (Option.some.inj hlst)

/-- Claim C7, counterexample: the claim says unparseable text yields 0, but
the text "." matches the regex `^([\\d,.]+)([KM])?$` while `parseFloat(".")`
is NaN, so `parseLikesCount` returns NaN (modelled `none`), not 0. -/
theorem parseLikesCount_dot_not_zero :
    parseLikesCount (some ".") = none ∧ parseLikesCount (some ".") ≠ some 0 := by
  constructor
  · decide
  · decide

/-- Claim C7 (amended): the parser maps "8M" to 8000000, "100K" to 100000,
"1,234" to 1234, "57.3K" to 57300, the empty string and null to 0, and
"abc" to 0 (first conjunction, also covering case-insensitive suffixes and
truncation examples).  For EVERY input whose cleaned text (trimmed,
uppercased, commas removed) fails the pattern "one or more digit/dot/comma
characters followed by an optional K or M", the result is 0 — in particular
no suffix other than K/M is recognized: any cleaned text ending in a
non-token character other than K or M yields 0.  For every input matching
the pattern, the result is Math.floor of parseFloat of the numeric group
times the suffix multiplier (K = 1000, M = 1000000, else 1) — truncation
toward zero after multiplication, results never negative — except that a
pattern-matching text with no parseable number (dots only, e.g. ".")
yields NaN rather than 0. -/
theorem parseLikesCount_spec :
    (parseLikesCount (some "8M") = some 8000000 ∧
      parseLikesCount (some "100K") = some 100000 ∧
      parseLikesCount (some "1,234") = some 1234 ∧
      parseLikesCount (some "57.3K") = some 57300 ∧
      parseLikesCount (some "") = some 0 ∧
      parseLikesCount none = some 0 ∧
      parseLikesCount (some "abc") = some 0 ∧
      parseLikesCount (some "5B") = some 0 ∧
      parseLikesCount (some "2.5m") = some 2500000 ∧
      parseLikesCount (some "1.2345K") = some 1234 ∧
      parseLikesCount (some " 12k ") = some 12000 ∧
      parseLikesCount (some ".") = none) ∧
    (∀ s : String, s ≠ "" → ¬ likesPatternMatch (cleanedLikesText s) →
      parseLikesCount (some s) = some 0) ∧
    (∀ (s : String) (pre : List Char) (c : Char), s ≠ "" →
      cleanedLikesText s = pre ++ [c] → likesTokenChar c = false → c ≠ 'K' → c ≠ 'M' →
      parseLikesCount (some s) = some 0) ∧
    (∀ (s : String) (body suf : List Char), s ≠ "" →
      cleanedLikesText s = body ++ suf → body ≠ [] →
      (∀ c ∈ body, likesTokenChar c = true) →
      (suf = [] ∨ suf = ['K'] ∨ suf = ['M']) →
      parseLikesCount (some s) =
        (match jsParseFloat body with
         | none => none
         | some (i, f, l) => some (jsFloorMul i f l (multOf suf)))) ∧
    (∀ t : Option String, parseLikesCount t = none ∨
      ∃ n : Int, parseLikesCount t = some n ∧ 0 ≤ n) :=
  ⟨⟨by decide, by decide, by decide, by decide, by decide, by decide, by decide,
    by decide, by decide, by decide, by decide, by decide⟩,
   parseLikesCount_nomatch, parseLikesCount_other_suffix, parseLikesCount_eq_of_decomp,
   parseLikesCount_nonneg⟩

/-- Witness instantiating the amended C7 theorem's no-other-suffix clause at
the concrete input "12x" (cleaned to 12X): X is not a numeric-group
character and not K/M, so the parser yields 0. -/
theorem parseLikesCount_spec_witness :
    (("12x" : String) ≠ "") ∧ cleanedLikesText "12x" = ['1', '2'] ++ ['X'] ∧
    likesTokenChar 'X' = false ∧ ('X' : Char) ≠ 'K' ∧ ('X' : Char) ≠ 'M' ∧
    parseLikesCount (some "12x") = some 0 :=
  ⟨by decide, by decide, by decide, by decide, by decide,
   parseLikesCount_spec.2.2.1 "12x" ['1', '2'] 'X' (by decide) (by decide) (by decide)
     (by decide) (by decide)⟩

end InstaScrape

namespace InstaScrape

/-! ## Supporting lemmas: hex, CBC, padding, split -/

theorem hexVal?_toHexDigit (n : Nat) (h : n < 16) : hexVal? (toHexDigit n) = some n := by
  interval_cases n <;> decide

theorem toHexDigit_ne_colon (n : Nat) : toHexDigit n ≠ ':' := by
  unfold toHexDigit
  split
  · rename_i h
    interval_cases n <;> decide
  · split
    · rename_i h1 h2
      interval_cases n <;> decide
    · decide

theorem isHexChar_toHexDigit (n : Nat) (h : n < 16) : isHexChar (toHexDigit n) = true := by
  simp [isHexChar, hexVal?_toHexDigit n h]

theorem nodeHexDecode_bytesToHexL (bs : List Nat) (h : ∀ b ∈ bs, b < 256) :
    nodeHexDecode (bytesToHexL bs) = bs := by
  induction bs with
  | nil => rfl
  | cons b t ih =>
    have hb : b < 256 := h b (List.mem_cons_self b t)
    have hdiv : b / 16 < 16 := Nat.div_lt_of_lt_mul (by omega)
    have hmod : b % 16 < 16 := Nat.mod_lt _ (by norm_num)
    have ht : ∀ x ∈ t, x < 256 := fun x hx => h x (List.mem_cons_of_mem _ hx)
    simp only [bytesToHexL, List.map_cons, List.flatten_cons, byteToHex, List.cons_append,
      List.nil_append]
    simp only [nodeHexDecode, hexVal?_toHexDigit _ hdiv, hexVal?_toHexDigit _ hmod]
    rw [show 16 * (b / 16) + b % 16 = b from by omega]
    exact congrArg (b :: ·) (ih ht)

theorem colon_not_mem_bytesToHexL (bs : List Nat) : ':' ∉ bytesToHexL bs := by
  intro hmem
  simp only [bytesToHexL, List.mem_flatten, List.mem_map] at hmem
  obtain ⟨l, ⟨b, _, rfl⟩, hcl⟩ := hmem
  simp only [byteToHex, List.mem_cons, List.not_mem_nil, or_false] at hcl
  rcases hcl with h | h
  · exact toHexDigit_ne_colon _ h.symm
  · exact toHexDigit_ne_colon _ h.symm

theorem isHexChar_mem_bytesToHexL (bs : List Nat) (h : ∀ b ∈ bs, b < 256) :
    ∀ c ∈ bytesToHexL bs, isHexChar c = true := by
  intro c hc
  simp only [bytesToHexL, List.mem_flatten, List.mem_map] at hc
  obtain ⟨l, ⟨b, hb, rfl⟩, hcl⟩ := hc
  have hb256 := h b hb
  have hdiv : b / 16 < 16 := Nat.div_lt_of_lt_mul (by omega)
  have hmod : b % 16 < 16 := Nat.mod_lt _ (by norm_num)
  simp only [byteToHex, List.mem_cons, List.not_mem_nil, or_false] at hcl
  rcases hcl with h1 | h1 <;> subst h1
  · exact isHexChar_toHexDigit _ hdiv
  · exact isHexChar_toHexDigit _ hmod

theorem length_bytesToHexL (bs : List Nat) : (bytesToHexL bs).length = 2 * bs.length := by
  induction bs with
  | nil => rfl
  | cons b t ih =>
    simp only [bytesToHexL, List.map_cons, List.flatten_cons, List.length_append,
      List.length_cons] at ih ⊢
    simp [byteToHex] at ih ⊢
    omega

theorem xorBytes_cancel (a b : List Nat) (h : a.length = b.length) :
    xorBytes (xorBytes a b) b = a := by
  induction a generalizing b with
  | nil => simp [xorBytes]
  | cons x xs ih =>
    cases b with
    | nil => simp at h
    | cons y ys =>
      simp only [xorBytes, List.zipWith_cons_cons]
      rw [show Nat.xor (Nat.xor x y) y = x from Nat.xor_cancel_right y x]
      exact congrArg (x :: ·) (ih ys (by simpa using h))

theorem length_xorBytes (a b : List Nat) : (xorBytes a b).length = min a.length b.length :=
  List.length_zipWith ..

theorem mem_xorBytes_lt (a b : List Nat) (ha : ∀ x ∈ a, x < 256) (hb : ∀ x ∈ b, x < 256) :
    ∀ x ∈ xorBytes a b, x < 256 := by
  induction a generalizing b with
  | nil => simp [xorBytes]
  | cons x xs ih =>
    cases b with
    | nil => simp [xorBytes]
    | cons y ys =>
      intro z hz
      simp only [xorBytes, List.zipWith_cons_cons, List.mem_cons] at hz
      rcases hz with rfl | hz
      · have h1 : x < 2 ^ 8 := ha x (by simp)
        have h2 : y < 2 ^ 8 := hb y (by simp)
        exact Nat.xor_lt_two_pow h1 h2
      · exact ih ys (fun u hu => ha u (by simp [hu])) (fun u hu => hb u (by simp [hu])) z hz

theorem chunk16_flatten (l : List Nat) : (chunk16 l).flatten = l := by
  induction l using chunk16.induct with
  | case1 => simp [chunk16]
  | case2 l hne ih =>
    rw [chunk16, dif_neg hne]
    simp only [List.flatten_cons, ih, List.take_append_drop]

theorem chunk16_blocks_len (l : List Nat) (h : l.length % 16 = 0) :
    ∀ b ∈ chunk16 l, b.length = 16 := by
  induction l using chunk16.induct with
  | case1 => simp [chunk16]
  | case2 l hne ih =>
    have hlen : 0 < l.length := List.length_pos.mpr hne
    have h16 : 16 ≤ l.length := by omega
    intro b hb
    rw [chunk16, dif_neg hne] at hb
    rcases List.mem_cons.mp hb with rfl | hb
    · simp [List.length_take]; omega
    · exact ih (by simp [List.length_drop]; omega) b hb

theorem chunk16_flatten_blocks (bs : List (List Nat)) (h : ∀ b ∈ bs, b.length = 16) :
    chunk16 bs.flatten = bs := by
  induction bs with
  | nil => simp [chunk16]
  | cons b t ih =>
    have hb : b.length = 16 := h b (by simp)
    have hne : b ++ t.flatten ≠ [] := by
      intro hcon
      have : b = [] := by
        cases b with
        | nil => rfl
        | cons x xs => simp at hcon
      rw [this] at hb; simp at hb
    simp only [List.flatten_cons]
    rw [chunk16, dif_neg hne]
    have ht : chunk16 t.flatten = t := ih (fun u hu => h u (by simp [hu]))
    rw [show (b ++ t.flatten).take 16 = b from by rw [← hb]; exact List.take_left b t.flatten]
    rw [show (b ++ t.flatten).drop 16 = t.flatten from by rw [← hb]; exact List.drop_left b t.flatten]
    rw [ht]

theorem length_pkcs7pad_mod (l : List Nat) : (pkcs7pad l).length % 16 = 0 := by
  simp only [pkcs7pad, List.length_append, List.length_replicate]
  have := Nat.mod_lt l.length (y := 16) (by norm_num)
  omega

theorem pkcs7unpad_pkcs7pad (l : List Nat) : pkcs7unpad (pkcs7pad l) = some l := by
  have hk1 : 1 ≤ 16 - l.length % 16 := by
    have := Nat.mod_lt l.length (y := 16) (by norm_num)
    omega
  have hk16 : 16 - l.length % 16 ≤ 16 := by omega
  set k := 16 - l.length % 16 with hkdef
  have hrep : List.replicate k k ≠ [] := by
    simp [List.replicate, hkdef]
    omega
  have hlast : (l ++ List.replicate k k).getLast? = some k := by
    rw [List.getLast?_append_of_ne_nil _ hrep]
    have : k - 1 + 1 = k := by omega
    rw [← this, List.replicate_succ']
    simp
  simp only [pkcs7unpad, pkcs7pad, ← hkdef, hlast]
  have hlen : (l ++ List.replicate k k).length = l.length + k := by simp
  have hdrop : (l ++ List.replicate k k).drop ((l ++ List.replicate k k).length - k)
      = List.replicate k k := by
    rw [hlen]
    have : l.length + k - k = l.length := by omega
    rw [this, List.drop_left]
  have htake : (l ++ List.replicate k k).take ((l ++ List.replicate k k).length - k) = l := by
    rw [hlen]
    have : l.length + k - k = l.length := by omega
    rw [this, List.take_left]
  rw [hdrop, htake]
  have hcond : (1 ≤ k && k ≤ 16 && k ≤ (l ++ List.replicate k k).length
      && ((List.replicate k k).all (fun b => b = k))) = true := by
    simp only [Bool.and_eq_true, decide_eq_true_eq, List.all_eq_true]
    refine ⟨⟨⟨hk1, hk16⟩, by rw [hlen]; omega⟩, ?_⟩
    intro b hb
    simp only [List.mem_replicate] at hb
    simp [hb.2]
  rw [if_pos hcond]

section CBC

variable (e d : List Nat → List Nat)

theorem cbcEncBlocks_blocks_len
    (hlen : ∀ b : List Nat, b.length = 16 → (e b).length = 16) :
    ∀ (ps : List (List Nat)) (prev : List Nat), prev.length = 16 →
      (∀ b ∈ ps, b.length = 16) → ∀ c ∈ cbcEncBlocks e prev ps, c.length = 16 := by
  intro ps
  induction ps with
  | nil => intro prev _ _ c hc; simp [cbcEncBlocks] at hc
  | cons p ps ih =>
    intro prev hprev hps c hc
    have hp : p.length = 16 := hps p (by simp)
    have hxor : (xorBytes p prev).length = 16 := by
      rw [length_xorBytes, hp, hprev]; simp
    have hc16 : (e (xorBytes p prev)).length = 16 := hlen _ hxor
    simp only [cbcEncBlocks, List.mem_cons] at hc
    rcases hc with rfl | hc
    · exact hc16
    · exact ih (e (xorBytes p prev)) hc16 (fun b hb => hps b (by simp [hb])) c hc

theorem cbcEncBlocks_bytes_lt
    (hlen : ∀ b : List Nat, b.length = 16 → (e b).length = 16)
    (hlt : ∀ b : List Nat, (∀ x ∈ b, x < 256) → ∀ x ∈ e b, x < 256) :
    ∀ (ps : List (List Nat)) (prev : List Nat), prev.length = 16 → (∀ x ∈ prev, x < 256) →
      (∀ b ∈ ps, b.length = 16 ∧ ∀ x ∈ b, x < 256) →
      ∀ c ∈ cbcEncBlocks e prev ps, ∀ x ∈ c, x < 256 := by
  intro ps
  induction ps with
  | nil => intro prev _ _ _ c hc; simp [cbcEncBlocks] at hc
  | cons p ps ih =>
    intro prev hprev hprevlt hps c hc
    have hp := hps p (by simp)
    have hxorlt : ∀ x ∈ xorBytes p prev, x < 256 := mem_xorBytes_lt _ _ hp.2 hprevlt
    have hclt : ∀ x ∈ e (xorBytes p prev), x < 256 := hlt _ hxorlt
    have hxlen : (xorBytes p prev).length = 16 := by
      rw [length_xorBytes, hp.1, hprev]; simp
    have hc16 : (e (xorBytes p prev)).length = 16 := hlen _ hxlen
    simp only [cbcEncBlocks, List.mem_cons] at hc
    rcases hc with rfl | hc
    · exact hclt
    · exact ih (e (xorBytes p prev)) hc16 hclt (fun b hb => hps b (by simp [hb])) c hc

theorem cbcDecBlocks_cbcEncBlocks
    (hlen : ∀ b : List Nat, b.length = 16 → (e b).length = 16)
    (hdec : ∀ b : List Nat, b.length = 16 → d (e b) = b) :
    ∀ (ps : List (List Nat)) (prev : List Nat), prev.length = 16 →
      (∀ b ∈ ps, b.length = 16) →
      cbcDecBlocks d prev (cbcEncBlocks e prev ps) = ps := by
  intro ps
  induction ps with
  | nil => intro prev _ _; rfl
  | cons p ps ih =>
    intro prev hprev hps
    have hp : p.length = 16 := hps p (by simp)
    have hxlen : (xorBytes p prev).length = 16 := by
      rw [length_xorBytes, hp, hprev]; simp
    have hc16 : (e (xorBytes p prev)).length = 16 := hlen _ hxlen
    simp only [cbcEncBlocks, cbcDecBlocks]
    rw [hdec _ hxlen]
    rw [xorBytes_cancel p prev (by rw [hp, hprev])]
    exact congrArg (p :: ·) (ih (e (xorBytes p prev)) hc16 (fun b hb => hps b (by simp [hb])))

end CBC

theorem jsSplitGo_no_sep (sep : Char) (l : List Char) (h : sep ∉ l) :
    ∀ acc, jsSplitGo sep l acc = [acc.reverse ++ l] := by
  induction l with
  | nil => intro acc; simp [jsSplitGo]
  | cons c t ih =>
    intro acc
    have hc : c ≠ sep := fun hcon => h (by simp [hcon])
    simp only [jsSplitGo, if_neg hc]
    rw [ih (fun hcon => h (by simp [hcon])) (c :: acc)]
    simp

theorem jsSplitGo_append (sep : Char) (A B : List Char) (hA : sep ∉ A) :
    ∀ acc, jsSplitGo sep (A ++ sep :: B) acc = (acc.reverse ++ A) :: jsSplitGo sep B [] := by
  induction A with
  | nil => intro acc; simp [jsSplitGo]
  | cons a A ih =>
    intro acc
    have ha : a ≠ sep := fun hcon => hA (by simp [hcon])
    simp only [List.cons_append, jsSplitGo, if_neg ha, List.append_eq]
    rw [ih (fun hcon => hA (by simp [hcon])) (a :: acc)]
    simp

theorem jsSplit_two (sep : Char) (A B : List Char) (hA : sep ∉ A) (hB : sep ∉ B) :
    jsSplit (A ++ sep :: B) sep = [A, B] := by
  rw [jsSplit, jsSplitGo_append sep A B hA []]
  rw [jsSplitGo_no_sep sep B hB []]
  simp

theorem pkcs7pad_blocks (pw : List Nat) (hlt : ∀ x ∈ pw, x < 256) :
    ∀ b ∈ chunk16 (pkcs7pad pw), b.length = 16 ∧ ∀ x ∈ b, x < 256 := by
  intro b hb
  refine ⟨chunk16_blocks_len _ (length_pkcs7pad_mod pw) b hb, ?_⟩
  intro x hx
  have hmem : x ∈ pkcs7pad pw := by
    rw [← chunk16_flatten (pkcs7pad pw)]
    exact List.mem_flatten.mpr ⟨b, hb, hx⟩
  simp only [pkcs7pad, List.mem_append, List.mem_replicate] at hmem
  rcases hmem with h | h
  · exact hlt x h
  · omega

theorem decryptPassword_hex_form (E : BlockCipher) (keyHex : List Char) (iv ct : List Nat)
    (hkey : (nodeHexDecode keyHex).length = 32)
    (hiv : iv.length = 16) (hivb : ∀ x ∈ iv, x < 256)
    (hctb : ∀ x ∈ ct, x < 256) (hmod : ct.length % 16 = 0) :
    decryptPassword E keyHex (bytesToHexL iv ++ ':' :: bytesToHexL ct) =
      match pkcs7unpad ((cbcDecBlocks (E.dec (nodeHexDecode keyHex)) iv
          (chunk16 ct)).flatten) with
      | some pt => .val pt
      | none => .thrown .badPadding := by
  have hne : (bytesToHexL iv ++ ':' :: bytesToHexL ct).isEmpty = false := by
    simp
  have hsplit : jsSplit (bytesToHexL iv ++ ':' :: bytesToHexL ct) ':' =
      [bytesToHexL iv, bytesToHexL ct] :=
    jsSplit_two ':' _ _ (colon_not_mem_bytesToHexL iv) (colon_not_mem_bytesToHexL ct)
  unfold decryptPassword
  rw [if_neg (by simp [hne])]
  rw [hsplit]
  rw [if_neg (by simp)]
  simp only [List.getD_cons_zero, List.getD_cons_succ]
  rw [nodeHexDecode_bytesToHexL iv hivb, nodeHexDecode_bytesToHexL ct hctb]
  rw [if_neg (by simp [hkey])]
  rw [if_neg (by simp [hiv])]
  rw [if_neg (by simp [hmod])]

theorem nodeHexDecode_length_of_hex (n : Nat) :
    ∀ l : List Char, l.length = 2 * n → (∀ c ∈ l, isHexChar c = true) →
      (nodeHexDecode l).length = n := by
  induction n with
  | zero =>
    intro l hl _
    have : l = [] := List.length_eq_zero.mp (by omega)
    subst this
    rfl
  | succ m ih =>
    intro l hl hhex
    match l with
    | [] => simp at hl
    | [c] => simp at hl; omega
    | c1 :: c2 :: rest =>
      have h1 : isHexChar c1 = true := hhex c1 (by simp)
      have h2 : isHexChar c2 = true := hhex c2 (by simp)
      obtain ⟨v1, hv1⟩ := Option.isSome_iff_exists.mp h1
      obtain ⟨v2, hv2⟩ := Option.isSome_iff_exists.mp h2
      simp only [nodeHexDecode, hv1, hv2, List.length_cons]
      have hrest : rest.length = 2 * m := by simp at hl; omega
      rw [ih rest hrest (fun c hc => hhex c (by simp [hc]))]

theorem normalizeEncryptionKey_allHex (envKey : Option (List Char)) (randomKeyHex : List Char)
    (hrnd : ∀ c ∈ randomKeyHex, isHexChar c = true)
    (hhex : ∀ s, envKey = some s → ∀ c ∈ s, isHexChar c = true) :
    ∀ c ∈ normalizeEncryptionKey envKey randomKeyHex, isHexChar c = true := by
  have hbase : ∀ c ∈ (match envKey with
      | none => randomKeyHex
      | some s => if s = [] || s = ENCRYPTION_KEY_PLACEHOLDER then randomKeyHex else s),
      isHexChar c = true := by
    match envKey with
    | none => exact hrnd
    | some s =>
      by_cases hs : s = [] || s = ENCRYPTION_KEY_PLACEHOLDER
      · simp only [hs, if_true]; exact hrnd
      · simp only [hs, Bool.false_eq_true, if_false]
        exact hhex s rfl
  intro c hc
  simp only [normalizeEncryptionKey] at hc
  split at hc
  · exact hbase c hc
  · split at hc
    · rcases List.mem_append.mp hc with h | h
      · exact hbase c h
      · have : c = '0' := (List.mem_replicate.mp h).2
        subst this
        decide
    · exact hbase c (List.mem_of_mem_take hc)

theorem normalizeEncryptionKey_length (envKey : Option (List Char)) (randomKeyHex : List Char)
    (hrlen : randomKeyHex.length = 64) :
    (normalizeEncryptionKey envKey randomKeyHex).length = 64 := by
  simp only [normalizeEncryptionKey]
  split
  · assumption
  · split
    · simp only [List.length_append, List.length_replicate]
      omega
    · simp only [List.length_take]
      omega

/-- Concrete 64-hex-character key used in witnesses. -/
def keyW : List Char := List.replicate 64 'a'

/-! ## Claims C5, C6, C10: credential vault -/

/-- Claim C5: for every non-empty plaintext (byte sequence) and every valid
key and 16-byte IV, decrypting the result of encrypting returns the original
plaintext, and the encrypted output has the form iv:ciphertext with both
parts hex-encoded.  The IV argument models the `crypto.randomBytes(16)`
value drawn freshly on each call, and the output embeds exactly its hex
rendering.  The block-cipher hypotheses state the AES-256 contract assumed
of node's crypto library. -/
theorem vault_roundtrip_and_format (E : BlockCipher) (keyHex : List Char) (iv pw : List Nat)
    (hkey : (nodeHexDecode keyHex).length = 32)
    (hiv : iv.length = 16) (hivb : ∀ x ∈ iv, x < 256)
    (hpw : pw ≠ []) (hpwb : ∀ x ∈ pw, x < 256)
    (hEl : ∀ k b, b.length = 16 → (E.enc k b).length = 16)
    (hEb : ∀ k b, (∀ x ∈ b, x < 256) → ∀ x ∈ E.enc k b, x < 256)
    (hD : ∀ k b, b.length = 16 → E.dec k (E.enc k b) = b) :
    ∃ ctHex : List Char,
      encryptPassword E keyHex iv pw = .val (bytesToHexL iv ++ ':' :: ctHex) ∧
      (∀ c ∈ bytesToHexL iv, isHexChar c = true) ∧
      (∀ c ∈ ctHex, isHexChar c = true) ∧
      decryptPassword E keyHex (bytesToHexL iv ++ ':' :: ctHex) = .val pw := by
  have hpwe : pw.isEmpty = false := by
    cases pw with
    | nil => exact absurd rfl hpw
    | cons a t => rfl
  have hblocks := pkcs7pad_blocks pw hpwb
  have hblen : ∀ b ∈ chunk16 (pkcs7pad pw), b.length = 16 := fun b hb => (hblocks b hb).1
  have hctblocks16 : ∀ c ∈ cbcEncBlocks (E.enc (nodeHexDecode keyHex)) iv
      (chunk16 (pkcs7pad pw)), c.length = 16 :=
    cbcEncBlocks_blocks_len _ (hEl _) _ iv hiv hblen
  have hctlt : ∀ x ∈ (cbcEncBlocks (E.enc (nodeHexDecode keyHex)) iv
      (chunk16 (pkcs7pad pw))).flatten, x < 256 := by
    intro x hx
    obtain ⟨c, hc, hxc⟩ := List.mem_flatten.mp hx
    exact cbcEncBlocks_bytes_lt _ (hEl _) (hEb _) _ iv hiv hivb hblocks c hc x hxc
  have hctmod : (cbcEncBlocks (E.enc (nodeHexDecode keyHex)) iv
      (chunk16 (pkcs7pad pw))).flatten.length % 16 = 0 := by
    generalize hgen : cbcEncBlocks (E.enc (nodeHexDecode keyHex)) iv
      (chunk16 (pkcs7pad pw)) = cbs at hctblocks16
    clear hgen
    induction cbs with
    | nil => simp
    | cons c cs ih =>
      simp only [List.flatten_cons, List.length_append]
      have hc : c.length = 16 := hctblocks16 c (by simp)
      have ihh := ih (fun u hu => hctblocks16 u (by simp [hu]))
      omega
  refine ⟨bytesToHexL (cbcEncBlocks (E.enc (nodeHexDecode keyHex)) iv
    (chunk16 (pkcs7pad pw))).flatten, ?_, ?_, ?_, ?_⟩
  · unfold encryptPassword
    rw [if_neg (by simp [hpwe])]
    rw [if_neg (by simp [hkey])]
  · exact isHexChar_mem_bytesToHexL iv hivb
  · exact isHexChar_mem_bytesToHexL _ hctlt
  · rw [decryptPassword_hex_form E keyHex iv _ hkey hiv hivb hctlt hctmod]
    rw [chunk16_flatten_blocks _ hctblocks16]
    rw [cbcDecBlocks_cbcEncBlocks (E.enc (nodeHexDecode keyHex)) (E.dec (nodeHexDecode keyHex))
      (hEl _) (hD _) _ iv hiv hblen]
    rw [chunk16_flatten]
    rw [pkcs7unpad_pkcs7pad]

/-- Witness instantiating the round-trip theorem with the identity block cipher. -/
theorem vault_roundtrip_witness :
    (nodeHexDecode keyW).length = 32 ∧
    (∃ ctHex : List Char,
      encryptPassword idCipher keyW (List.range 16) [104, 105]
        = .val (bytesToHexL (List.range 16) ++ ':' :: ctHex) ∧
      (∀ c ∈ bytesToHexL (List.range 16), isHexChar c = true) ∧
      (∀ c ∈ ctHex, isHexChar c = true) ∧
      decryptPassword idCipher keyW (bytesToHexL (List.range 16) ++ ':' :: ctHex)
        = .val [104, 105]) :=
  ⟨by decide,
   vault_roundtrip_and_format idCipher keyW (List.range 16) [104, 105] (by decide) (by decide)
     (by decide) (by decide) (by decide) (fun _ _ hb => hb) (fun _ _ h => h) (fun _ _ _ => rfl)⟩

/-- Claim C6, counterexample: the empty string is a malformed blob (it has
no iv:ciphertext pair), yet `decryptPassword` returns null for it — the
falsy-input check at the top of the function precedes the format check, so
no `DecryptionError` is raised. -/
theorem decryptPassword_empty_blob_null :
    decryptPassword idCipher keyW [] = .nullVal ∧
    ∀ err, decryptPassword idCipher keyW [] ≠ .thrown err := by
  constructor
  · rfl
  · intro err h
    simp [decryptPassword] at h

/-- Claim C6 (amended): for every NON-EMPTY input blob that is malformed
(does not split into exactly one iv:ciphertext pair, IV not 16 bytes after
lenient hex decoding, ciphertext not whole blocks, or invalid padding) or
when the key size is wrong, decryption throws a DecryptionError; empty or
null input instead returns null without raising. -/
theorem decryptPassword_malformed_throws (E : BlockCipher) (keyHex : List Char) (blob : List Char)
    (hne : blob ≠ [])
    (h : (jsSplit blob ':').length ≠ 2 ∨
      (nodeHexDecode keyHex).length ≠ 32 ∨
      (nodeHexDecode ((jsSplit blob ':').getD 0 [])).length ≠ 16 ∨
      (nodeHexDecode ((jsSplit blob ':').getD 1 [])).length % 16 ≠ 0 ∨
      pkcs7unpad ((cbcDecBlocks (E.dec (nodeHexDecode keyHex))
        (nodeHexDecode ((jsSplit blob ':').getD 0 []))
        (chunk16 (nodeHexDecode ((jsSplit blob ':').getD 1 [])))).flatten) = none) :
    ∃ err, decryptPassword E keyHex blob = .thrown err := by
  have hbe : blob.isEmpty = false := by
    cases blob with
    | nil => exact absurd rfl hne
    | cons a t => rfl
  simp only [decryptPassword, hbe, Bool.false_eq_true, if_false]
  by_cases h1 : (jsSplit blob ':').length ≠ 2
  · exact ⟨.badFormat, by rw [if_pos h1]⟩
  · rw [if_neg h1]
    by_cases h2 : (nodeHexDecode keyHex).length ≠ 32
    · exact ⟨.badKeyLength, by rw [if_pos h2]⟩
    · rw [if_neg h2]
      by_cases h3 : (nodeHexDecode ((jsSplit blob ':').getD 0 [])).length ≠ 16
      · exact ⟨.badIv, by rw [if_pos h3]⟩
      · rw [if_neg h3]
        by_cases h4 : (nodeHexDecode ((jsSplit blob ':').getD 1 [])).length % 16 ≠ 0
        · exact ⟨.badBlockLength, by rw [if_pos h4]⟩
        · rw [if_neg h4]
          have h5 : pkcs7unpad ((cbcDecBlocks (E.dec (nodeHexDecode keyHex))
              (nodeHexDecode ((jsSplit blob ':').getD 0 []))
              (chunk16 (nodeHexDecode ((jsSplit blob ':').getD 1 [])))).flatten) = none := by
            rcases h with h | h | h | h | h
            · exact absurd h h1
            · exact absurd h h2
            · exact absurd h h3
            · exact absurd h h4
            · exact h
          rw [h5]
          exact ⟨.badPadding, rfl⟩

/-- Witness for the malformed-blob theorem at the one-character blob x. -/
theorem decryptPassword_malformed_throws_witness :
    (['x'] : List Char) ≠ [] ∧ (jsSplit ['x'] ':').length ≠ 2 ∧
    (∃ err, decryptPassword idCipher keyW ['x'] = .thrown err) :=
  ⟨by decide, by decide,
   decryptPassword_malformed_throws idCipher keyW ['x'] (by decide) (Or.inl (by decide))⟩

/-- Claim C10: at module load the encryption key is normalized to exactly
64 characters; provided the configured value consists only of hex digits
(or is absent/placeholder, in which case a random 32-byte key rendered as
64 hex characters is used), the derived key buffer is exactly 32 bytes and
the Invalid-key-length branch inside both `encryptPassword` and
`decryptPassword` is unreachable. -/
theorem encryption_key_normalized (envKey : Option (List Char)) (randomBytes : List Nat)
    (hrb : randomBytes.length = 32) (hrbb : ∀ b ∈ randomBytes, b < 256)
    (hhex : ∀ s, envKey = some s → ∀ c ∈ s, isHexChar c = true) :
    (normalizeEncryptionKey envKey (bytesToHexL randomBytes)).length = 64 ∧
    (nodeHexDecode (normalizeEncryptionKey envKey (bytesToHexL randomBytes))).length = 32 ∧
    (∀ (E : BlockCipher) (iv pw : List Nat),
      encryptPassword E (normalizeEncryptionKey envKey (bytesToHexL randomBytes)) iv pw
        ≠ .thrown .badKeyLength) ∧
    (∀ (E : BlockCipher) (blob : List Char),
      decryptPassword E (normalizeEncryptionKey envKey (bytesToHexL randomBytes)) blob
        ≠ .thrown .badKeyLength) := by
  have hrndhex : ∀ c ∈ bytesToHexL randomBytes, isHexChar c = true :=
    isHexChar_mem_bytesToHexL _ hrbb
  have hrlen : (bytesToHexL randomBytes).length = 64 := by
    rw [length_bytesToHexL, hrb]
  have hlen64 := normalizeEncryptionKey_length envKey _ hrlen
  have hallhex := normalizeEncryptionKey_allHex envKey _ hrndhex hhex
  have hdec32 : (nodeHexDecode (normalizeEncryptionKey envKey (bytesToHexL randomBytes))).length
      = 32 := nodeHexDecode_length_of_hex 32 _ (by rw [hlen64]) hallhex
  refine ⟨hlen64, hdec32, ?_, ?_⟩
  · intro E iv pw hcon
    simp only [encryptPassword] at hcon
    by_cases h1 : pw.isEmpty = true
    · rw [if_pos h1] at hcon
      simp at hcon
    · rw [if_neg h1] at hcon
      rw [if_neg (by simp [hdec32])] at hcon
      simp at hcon
  · intro E blob hcon
    simp only [decryptPassword] at hcon
    by_cases h0 : blob.isEmpty = true
    · rw [if_pos h0] at hcon
      simp at hcon
    · rw [if_neg h0] at hcon
      by_cases h1 : (jsSplit blob ':').length ≠ 2
      · rw [if_pos h1] at hcon
        simp at hcon
      · rw [if_neg h1] at hcon
        rw [if_neg (by simp [hdec32])] at hcon
        by_cases h3 : (nodeHexDecode ((jsSplit blob ':').getD 0 [])).length ≠ 16
        · rw [if_pos h3] at hcon
          simp at hcon
        · rw [if_neg h3] at hcon
          by_cases h4 : (nodeHexDecode ((jsSplit blob ':').getD 1 [])).length % 16 ≠ 0
          · rw [if_pos h4] at hcon
            simp at hcon
          · rw [if_neg h4] at hcon
            cases h5 : pkcs7unpad ((cbcDecBlocks
                (E.dec (nodeHexDecode (normalizeEncryptionKey envKey (bytesToHexL randomBytes))))
                (nodeHexDecode ((jsSplit blob ':').getD 0 []))
                (chunk16 (nodeHexDecode ((jsSplit blob ':').getD 1 [])))).flatten) with
            | some pt => rw [h5] at hcon; simp at hcon
            | none => rw [h5] at hcon; simp at hcon

/-- Witness for the key-normalization theorem with a short hex configured key. -/
theorem encryption_key_normalized_witness :
    (List.range 32).length = 32 ∧
    ((normalizeEncryptionKey (some "abc123".toList) (bytesToHexL (List.range 32))).length = 64 ∧
      (nodeHexDecode (normalizeEncryptionKey (some "abc123".toList)
        (bytesToHexL (List.range 32)))).length = 32 ∧
      (∀ (E : BlockCipher) (iv pw : List Nat),
        encryptPassword E (normalizeEncryptionKey (some "abc123".toList)
          (bytesToHexL (List.range 32))) iv pw ≠ .thrown .badKeyLength) ∧
      (∀ (E : BlockCipher) (blob : List Char),
        decryptPassword E (normalizeEncryptionKey (some "abc123".toList)
          (bytesToHexL (List.range 32))) blob ≠ .thrown .badKeyLength)) :=
  ⟨by decide,
   encryption_key_normalized (some "abc123".toList) (List.range 32) (by decide) (by decide)
     (fun s hs => by cases hs; decide)⟩

end InstaScrape

namespace InstaScrape

/-! ## Supporting lemmas: worker model frame properties -/

theorem accounts_saveLogToDB (db : DB) (a : Nat) (l m : String) :
    (saveLogToDB db a l m).accounts = db.accounts := rfl

theorem reels_saveLogToDB (db : DB) (a : Nat) (l m : String) :
    (saveLogToDB db a l m).reels = db.reels := rfl

theorem outreach_saveLogToDB (db : DB) (a : Nat) (l m : String) :
    (saveLogToDB db a l m).outreach = db.outreach := rfl

theorem accounts_processReelOutreach (db : DB) (acct : Account) (url : Option String)
    (un : String) (e : OutreachEnv) (now : Nat) :
    ((processReelOutreach db acct url un e now).1).accounts = db.accounts := by
  simp only [processReelOutreach]
  repeat' split
  all_goals simp [saveLogToDB, createOutreachRow]

theorem reels_processReelOutreach (db : DB) (acct : Account) (url : Option String)
    (un : String) (e : OutreachEnv) (now : Nat) :
    ((processReelOutreach db acct url un e now).1).reels = db.reels := by
  simp only [processReelOutreach]
  repeat' split
  all_goals simp [saveLogToDB, createOutreachRow]

theorem accounts_collectQualified (acct : Account) (info : ExtractInfo) (oenv : OutreachEnv)
    (st : LoopState) (db : DB) (now : Nat) :
    ((collectQualified acct info oenv st db now).1).accounts = db.accounts := by
  simp only [collectQualified]
  repeat' split
  all_goals simp [saveLogToDB, createReelRow, accounts_processReelOutreach]

theorem accounts_collectIter (acct : Account) (e : IterEnv) (st : LoopState) (db : DB)
    (now : Nat) : ((collectIter acct e st db now).1).accounts = db.accounts := by
  simp only [collectIter]
  repeat' split
  all_goals simp [saveLogToDB, accounts_collectQualified]

theorem accounts_collectLoop (acct : Account) (envs : List IterEnv) :
    ∀ (st : LoopState) (db : DB) (now : Nat),
      ((collectLoop acct envs st db now).1).accounts = db.accounts := by
  induction envs with
  | nil => intro st db now; rfl
  | cons e rest ih =>
    intro st db now
    simp only [collectLoop]
    split
    · split
      · rfl
      · split
        · rfl
        · rw [ih]
          exact accounts_collectIter acct e st db now
    · rfl

theorem runPlaywrightBot_ok (db : DB) (acct : Account) (env : RunEnv) (now : Nat)
    (hs : env.sessionOk = true) (hv : env.videoOk = true) :
    ∃ (n : Nat) (reason : StopReason) (db2 : DB),
      runPlaywrightBot db acct env now = (db2, .ok n reason) ∧ db2.accounts = db.accounts := by
  simp only [runPlaywrightBot, hs, Bool.not_true, Bool.false_eq_true, if_false,
    collectReels, hv, if_neg]
  refine ⟨_, _, _, rfl, ?_⟩
  simp [saveLogToDB, accounts_collectLoop]

theorem findUnique_update_self (db : DB) (id : Nat) (f : Account → Account)
    (hid : ∀ a, (f a).id = a.id) (acct : Account) (h : findUniqueAccount db id = some acct) :
    findUniqueAccount (updateAccount db id f) id = some (f acct) := by
  have h2 : db.accounts.find? (fun a => a.id == id) = some acct := h
  have hpred : (acct.id == id) = true := by
    have := List.find?_some h2
    simpa using this
  unfold findUniqueAccount updateAccount
  rw [List.find?_map]
  have hcong : ((fun a : Account => a.id == id) ∘ fun a : Account => if a.id == id then f a else a)
      = (fun a : Account => a.id == id) := by
    funext a
    by_cases ha : (a.id == id) = true
    · simp [Function.comp, ha, hid]
    · simp [Function.comp, ha]
  rw [hcong]
  rw [h2]
  rw [Option.map_some']
  rw [if_pos hpred]

end InstaScrape

namespace InstaScrape

/-! ## Concrete fixtures used by counterexamples and witnesses -/

/-- A running account fixture. -/
def acctW : Account := ⟨1, "alice", Status.running, "hello there", 0⟩

/-- Extraction result with every field null. -/
def infoNone : ExtractInfo := ⟨none, none, none, none⟩

/-- Outreach environment where every browser step succeeds (including the
back-button return to the reels feed). -/
def oenvAll : OutreachEnv := ⟨true, true, true, true, true, true⟩

/-- One loop iteration where the metric is absent and the scroll fails. -/
def failIter : IterEnv :=
  ⟨none, "https://www.instagram.com/reels/abc/", infoNone, infoNone, oenvAll, false⟩

/-- Database with only the running account. -/
def dbW : DB := ⟨[acctW], [], [], [], 1, 1⟩

/-- Run environment whose four iterations all fail to advance. -/
def envFail : RunEnv := ⟨true, true, [failIter, failIter, failIter, failIter]⟩

/-! ## Claim C1: three consecutive advance failures -/

/-- Claim C1, counterexample: with a run whose scroll attempts fail three
consecutive times, the handler returns normally with stop reason
tooManyFailures — no NavigationStuckError-like failure is thrown — and the
account status remains running, not error. -/
theorem three_failures_counterexample :
    (botHandler dbW 1 envFail 7).result = .ok (.completed 0 .tooManyFailures) ∧
    (findUniqueAccount (botHandler dbW 1 envFail 7).db 1).map Account.status
      = some Status.running := by
  constructor
  · decide
  · decide

/-- Claim C1 (amended): when the job handler finds a running account and
the session and reels feed come up, the run always returns normally — in
particular after the loop stops because attemptScrollToNextReel failed
three consecutive times, the loop merely breaks with a warning — and the
account status is left at running; it never becomes error. -/
theorem three_failures_no_error_status (db : DB) (aid : Nat) (acct : Account) (env : RunEnv)
    (now : Nat)
    (hfind : findUniqueAccount db aid = some acct)
    (hrun : acct.status = Status.running)
    (hs : env.sessionOk = true) (hv : env.videoOk = true) :
    ∃ (n : Nat) (reason : StopReason),
      (botHandler db aid env now).result = .ok (.completed n reason) ∧
      ∃ a, findUniqueAccount (botHandler db aid env now).db aid = some a ∧
        a.status = Status.running := by
  obtain ⟨n, reason, db2, hrb, hacc⟩ := runPlaywrightBot_ok db acct env now hs hv
  have hnr : ¬ acct.status ≠ Status.running := by simp [hrun]
  simp only [botHandler, hfind]
  rw [if_neg hnr]
  rw [hrb]
  refine ⟨n, reason, rfl, ?_⟩
  have hfind2 : findUniqueAccount db2 aid = some acct := by
    show db2.accounts.find? (fun a => a.id == aid) = some acct
    rw [hacc]
    exact hfind
  refine ⟨{acct with lastActive := now}, ?_, hrun⟩
  exact findUnique_update_self db2 aid (fun a => {a with lastActive := now}) (fun a => rfl)
    acct hfind2

/-- Account fixture for the C1 witness. -/
def acctV : Account := ⟨2, "bob", Status.running, "hi", 0⟩

/-- Database fixture for the C1 witness. -/
def dbV : DB := ⟨[acctV], [], [], [], 1, 1⟩

/-- Run environment fixture for the C1 witness. -/
def envV : RunEnv := ⟨true, true, []⟩

/-- Witness for the amended C1 theorem at a concrete running account. -/
theorem three_failures_no_error_status_witness :
    findUniqueAccount dbV 2 = some acctV ∧ acctV.status = Status.running ∧
    (∃ (n : Nat) (reason : StopReason),
      (botHandler dbV 2 envV 3).result = .ok (.completed n reason) ∧
      ∃ a, findUniqueAccount (botHandler dbV 2 envV 3).db 2 = some a ∧
        a.status = Status.running) :=
  ⟨by decide, by decide,
   three_failures_no_error_status dbV 2 acctV envV 3 (by decide) (by decide) (by decide)
     (by decide)⟩

/-! ## Claim C9: non-running account observed by the handler -/

/-- Claim C9: when the job handler observes a missing account or one whose
status is not running, it performs none of the enumerated persistent side
effects: the accounts table (hence status and lastActive), the reels table
and the outreach table are all unchanged, and the browser run is never
started.  (On the missing-account path the handler does append an error
LogEntry and rethrows; log rows are outside the effects enumerated by the
claim.) -/
theorem botHandler_non_running_no_side_effects (db : DB) (aid : Nat) (env : RunEnv) (now : Nat)
    (h : ∀ a, findUniqueAccount db aid = some a → a.status ≠ Status.running) :
    (botHandler db aid env now).db.accounts = db.accounts ∧
    (botHandler db aid env now).db.reels = db.reels ∧
    (botHandler db aid env now).db.outreach = db.outreach ∧
    (botHandler db aid env now).ranBot = false := by
  cases hf : findUniqueAccount db aid with
  | none =>
    simp [botHandler, hf, saveLogToDB]
  | some a =>
    have hns : a.status ≠ Status.running := h a hf
    simp only [botHandler, hf]
    rw [if_pos hns]
    exact ⟨rfl, rfl, rfl, rfl⟩

/-- Stopped-account fixture for the C9 witness. -/
def acctStopped : Account := ⟨3, "carol", Status.stopped, "m", 0⟩

/-- Database fixture for the C9 witness. -/
def dbStopped : DB := ⟨[acctStopped], [⟨9, 3, some "u", some 1, false, false⟩], [], [], 10, 1⟩

/-- Witness for the C9 theorem at a concrete stopped account. -/
theorem botHandler_non_running_no_side_effects_witness :
    acctStopped.status ≠ Status.running ∧
    ((botHandler dbStopped 3 envV 4).db.accounts = dbStopped.accounts ∧
      (botHandler dbStopped 3 envV 4).db.reels = dbStopped.reels ∧
      (botHandler dbStopped 3 envV 4).db.outreach = dbStopped.outreach ∧
      (botHandler dbStopped 3 envV 4).ranBot = false) :=
  ⟨by decide,
   botHandler_non_running_no_side_effects dbStopped 3 envV 4
     (fun a ha => by
       rw [show findUniqueAccount dbStopped 3 = some acctStopped from rfl] at ha
       cases ha
       decide)⟩

end InstaScrape

namespace InstaScrape

/-! ## Claim C3: outreach record writing -/

/-- Database fixture containing the reel row the outreach call refers to. -/
def dbReel : DB :=
  ⟨[acctW], [⟨5, 1, some "https://www.instagram.com/reels/xyz/", some 200000, false, false⟩],
   [], [], 6, 1⟩

/-- Outreach environment where delivery succeeds but the back-button return
fails, forcing the fallback navigation path. -/
def oenvFallback : OutreachEnv := ⟨true, true, true, true, false, true⟩

/-- Claim C3, failing evaluation: delivery is attempted and succeeds
(success and sent are both true), the back-button return to the reels feed
succeeds, and NO OutreachRecord is written — the early return at line 1278
precedes the prisma.outreach.create at line 1290.  By contrast, the same
call on the fallback-navigation path (back button fails) writes exactly one
record reflecting the outcome. -/
theorem processReelOutreach_back_success_writes_no_record :
    (processReelOutreach dbReel acctW (some "https://www.instagram.com/reels/xyz/") "tara"
        oenvAll 9).2 = ⟨true, true⟩ ∧
    ((processReelOutreach dbReel acctW (some "https://www.instagram.com/reels/xyz/") "tara"
        oenvAll 9).1).outreach = [] ∧
    ((processReelOutreach dbReel acctW (some "https://www.instagram.com/reels/xyz/") "tara"
        oenvFallback 9).1).outreach
      = [⟨1, 5, "tara", "hello there".toList, true, some 9⟩] := by
  refine ⟨by decide, by decide, by decide⟩

/-! ## Claim C4: qualification gate -/

/-- The qualification gate of the collection loop (line 1342): an item
proceeds to full extraction and outreach exactly when this is true.  It is
the negation of the skip condition
`!likesOnly.likesText || likes < REEL_FILTERS.MIN_LIKES`. -/
def reelGatePasses (likesText : Option String) : Bool :=
  !(!(jsTruthy likesText) || jsLtOpt (parseLikesCount likesText) REEL_FILTERS_MIN_LIKES)

/-- The qualification predicate as worded by the claim (for comparison with
the gate implemented by the code): parsed metric at least the threshold AND
not flagged as advertisement or livestream. -/
def shouldQualifySpec (likesText : Option String) (isAd isLive : Bool) : Bool :=
  (match parseLikesCount likesText with
   | some v => decide (REEL_FILTERS_MIN_LIKES ≤ v)
   | none => false) && !isAd && !isLive

/-- Claim C4, counterexample: for the metric text "." the parsed metric is
NaN, which is NOT greater than or equal to MIN_LIKES, so the claim says the
item is skipped; but in the code NaN < MIN_LIKES is also false, so the gate
passes and the item is processed. -/
theorem nan_metric_qualifies_counterexample :
    reelGatePasses (some ".") = true ∧ shouldQualifySpec (some ".") false false = false := by
  constructor
  · decide
  · decide

/-- Claim C4 (amended): an item qualifies iff its metric text is truthy and
its parsed metric is not below MIN_LIKES under JavaScript comparison — that
is, the metric is at least the threshold or it parsed as NaN (which also
qualifies).  No advertisement/livestream flags are consulted anywhere:
every reel row the loop creates carries isAd = false and isLive = false,
and an item failing the gate is skipped without touching the reels or
outreach tables. -/
theorem reelGate_characterization :
    (∀ lt : Option String, reelGatePasses lt = true ↔
        (jsTruthy lt = true ∧ (parseLikesCount lt = none ∨
          ∃ v : Int, parseLikesCount lt = some v ∧ REEL_FILTERS_MIN_LIKES ≤ v))) ∧
    (∀ (db : DB) (aid : Nat) (url : Option String) (v : Option Int),
        (createReelRow db aid url v).2.isAd = false ∧
        (createReelRow db aid url v).2.isLive = false) ∧
    (∀ (acct : Account) (e : IterEnv) (st : LoopState) (db : DB) (now : Nat),
        reelGatePasses e.likesText = false →
        ((collectIter acct e st db now).1).reels = db.reels ∧
        ((collectIter acct e st db now).1).outreach = db.outreach) := by
  refine ⟨?_, ?_, ?_⟩
  · intro lt
    unfold reelGatePasses jsLtOpt
    cases hp : parseLikesCount lt with
    | none => simp [hp]
    | some v =>
      simp only [hp, Bool.not_or, Bool.not_not, Bool.and_eq_true, Bool.not_eq_true',
        decide_eq_false_iff_not, Int.not_lt]
      constructor
      · rintro ⟨h1, h2⟩
        exact ⟨by simpa using h1, Or.inr ⟨v, rfl, h2⟩⟩
      · rintro ⟨h1, h2⟩
        refine ⟨by simpa using h1, ?_⟩
        rcases h2 with h2 | ⟨w, hw, hle⟩
        · exact absurd h2 (by simp)
        · cases Option.some.inj hw
          exact hle
  · intro db aid url v
    exact ⟨rfl, rfl⟩
  · intro acct e st db now hgate
    have hcond : (!(jsTruthy e.likesText)
        || jsLtOpt (parseLikesCount e.likesText) REEL_FILTERS_MIN_LIKES) = true := by
      revert hgate
      unfold reelGatePasses
      cases !(jsTruthy e.likesText)
        || jsLtOpt (parseLikesCount e.likesText) REEL_FILTERS_MIN_LIKES <;> simp
    simp only [collectIter]
    rw [if_pos hcond]
    exact ⟨rfl, rfl⟩

/-- Witness instantiating the amended C4 theorem: the gate fails on an
absent metric text and the skip path leaves reels and outreach unchanged. -/
theorem reelGate_characterization_witness :
    reelGatePasses failIter.likesText = false ∧
    ((collectIter acctW failIter ⟨0, 0, [], 0⟩ dbW 7).1).reels = dbW.reels ∧
    ((collectIter acctW failIter ⟨0, 0, [], 0⟩ dbW 7).1).outreach = dbW.outreach :=
  ⟨by decide,
   (reelGate_characterization.2.2 acctW failIter ⟨0, 0, [], 0⟩ dbW 7 (by decide)).1,
   (reelGate_characterization.2.2 acctW failIter ⟨0, 0, [], 0⟩ dbW 7 (by decide)).2⟩

end InstaScrape

namespace InstaScrape

/-! ## Claim C2: OutreachRecord uniqueness invariant -/

/-- The de-duplication invariant: at most one OutreachRecord row per
(reel id, target user) pair. -/
def OutreachInv (db : DB) : Prop :=
  ∀ (rid : Nat) (tu : String),
    db.outreach.countP (fun o => o.reelId == rid && o.targetUser == tu) ≤ 1

theorem outreachInv_of_eq {db db2 : DB} (h : db2.outreach = db.outreach)
    (hinv : OutreachInv db) : OutreachInv db2 := by
  intro rid tu
  rw [h]
  exact hinv rid tu

theorem outreachInv_create (db : DB) (rid : Nat) (tu : String) (msg : List Char)
    (sent : Bool) (now : Nat) (hinv : OutreachInv db)
    (hnone : findFirstOutreach db rid tu = none) :
    OutreachInv (createOutreachRow db rid tu msg sent now) := by
  intro r t
  simp only [createOutreachRow, List.countP_append]
  by_cases hm : ((rid == r) && (tu == t)) = true
  · have hr : rid = r := by
      have := (Bool.and_eq_true _ _).mp hm
      simpa using this.1
    have ht : tu = t := by
      have := (Bool.and_eq_true _ _).mp hm
      simpa using this.2
    subst hr
    subst ht
    have hzero : db.outreach.countP (fun o => o.reelId == rid && o.targetUser == tu) = 0 :=
      List.countP_eq_zero.mpr (List.find?_eq_none.mp hnone)
    rw [hzero]
    simp [List.countP_cons, hm]
  · have hone : List.countP (fun o => o.reelId == r && o.targetUser == t)
        [(⟨db.nextOutreachId, rid, tu, msg, sent, if sent then some now else none⟩ : OutreachRow)]
        = 0 := by
      simp [List.countP_cons, hm]
    rw [hone]
    have := hinv r t
    omega

theorem findFirstReel_created (db1 : DB) (aid : Nat) (url : Option String) (v : Option Int)
    (hnone : findFirstReel db1 aid url = none) :
    findFirstReel (createReelRow db1 aid url v).1 aid url
      = some (createReelRow db1 aid url v).2 := by
  unfold findFirstReel createReelRow
  unfold findFirstReel at hnone
  rw [List.find?_append, hnone]
  simp

theorem outreachInv_processReelOutreach (db : DB) (acct : Account) (url : Option String)
    (un : String) (e : OutreachEnv) (now : Nat) (hinv : OutreachInv db)
    (hguard : ∀ reel, findFirstReel db acct.id url = some reel →
      findFirstOutreach db reel.id un = none) :
    OutreachInv ((processReelOutreach db acct url un e now).1) := by
  simp only [processReelOutreach]
  repeat' split
  all_goals
    first
    | exact outreachInv_of_eq rfl hinv
    | (rename_i reel heq
       exact outreachInv_create _ _ _ _ _ _ (outreachInv_of_eq rfl hinv) (hguard reel heq))

end InstaScrape

namespace InstaScrape

theorem outreachInv_collectQualified (acct : Account) (info : ExtractInfo)
    (oenv : OutreachEnv) (st : LoopState) (db : DB) (now : Nat) (hinv : OutreachInv db) :
    OutreachInv ((collectQualified acct info oenv st db now).1) := by
  simp only [collectQualified]
  cases hfr : findFirstReel db acct.id info.url with
  | some r =>
    simp only [hfr]
    split
    next o heqo => exact outreachInv_of_eq rfl hinv
    next heqo =>
      refine outreachInv_processReelOutreach _ _ _ _ _ _ hinv ?_
      intro reel hr
      rw [hfr] at hr
      cases Option.some.inj hr
      exact heqo
  | none =>
    simp only [hfr]
    split
    next o heqo => exact outreachInv_of_eq rfl hinv
    next heqo =>
      refine outreachInv_processReelOutreach _ _ _ _ _ _ (outreachInv_of_eq rfl hinv) ?_
      intro reel hr
      have hcreated := findFirstReel_created db acct.id info.url
        (parseLikesCount info.likesText) hfr
      rw [hcreated] at hr
      cases Option.some.inj hr
      exact heqo

theorem outreachInv_collectIter (acct : Account) (e : IterEnv) (st : LoopState) (db : DB)
    (now : Nat) (hinv : OutreachInv db) :
    OutreachInv ((collectIter acct e st db now).1) := by
  simp only [collectIter]
  split
  · exact outreachInv_of_eq rfl hinv
  · split
    · exact outreachInv_of_eq rfl hinv
    · split
      · exact outreachInv_of_eq rfl hinv
      · exact outreachInv_collectQualified acct _ e.oenv st _ now (outreachInv_of_eq rfl hinv)

theorem outreachInv_collectLoop (acct : Account) (envs : List IterEnv) :
    ∀ (st : LoopState) (db : DB) (now : Nat), OutreachInv db →
      OutreachInv ((collectLoop acct envs st db now).1) := by
  induction envs with
  | nil =>
    intro st db now h
    exact h
  | cons e rest ih =>
    intro st db now h
    simp only [collectLoop]
    split
    · split
      · exact h
      · split
        · exact outreachInv_of_eq rfl h
        · have hone := outreachInv_collectIter acct e st db now h
          cases hci : collectIter acct e st db now with
          | mk db2 st2 =>
            rw [hci] at hone
            exact ih _ _ now hone
    · exact h

theorem outreachInv_collectReels (db : DB) (acct : Account) (videoOk : Bool)
    (envs : List IterEnv) (now : Nat) (hinv : OutreachInv db) :
    OutreachInv (collectReels db acct videoOk envs now).1 := by
  simp only [collectReels]
  split
  · exact outreachInv_of_eq rfl hinv
  · exact outreachInv_of_eq rfl
      (outreachInv_collectLoop acct envs _ _ now (outreachInv_of_eq rfl hinv))

theorem outreachInv_runPlaywrightBot (db : DB) (acct : Account) (env : RunEnv) (now : Nat)
    (hinv : OutreachInv db) :
    OutreachInv (runPlaywrightBot db acct env now).1 := by
  simp only [runPlaywrightBot]
  split
  · exact outreachInv_of_eq rfl hinv
  · have hcr := outreachInv_collectReels (saveLogToDB db acct.id "info" "Bot started") acct
      env.videoOk env.iters now (outreachInv_of_eq rfl hinv)
    split
    next db2 e2 heq =>
      rw [heq] at hcr
      exact outreachInv_of_eq rfl hcr
    next db2 n r heq =>
      rw [heq] at hcr
      exact outreachInv_of_eq rfl hcr

/-- Claim C2: the job handler preserves the at-most-one-OutreachRecord-per-
(reel, target user) invariant: the collection loop checks
findFirstOutreach before calling processReelOutreach, and the only row ever
appended is for a pair that had no row, so repeated processing of the same
pair never produces a second row — across any number of sequential runs. -/
theorem botHandler_preserves_outreach_uniqueness (db : DB) (aid : Nat) (env : RunEnv)
    (now : Nat) (hinv : OutreachInv db) :
    OutreachInv (botHandler db aid env now).db := by
  simp only [botHandler]
  cases hf : findUniqueAccount db aid with
  | none => exact outreachInv_of_eq rfl hinv
  | some acct =>
    dsimp only
    by_cases hst : acct.status ≠ Status.running
    · rw [if_pos hst]
      exact outreachInv_of_eq rfl hinv
    · rw [if_neg hst]
      have hrb := outreachInv_runPlaywrightBot db acct env now hinv
      split
      next db2 n r heq =>
        rw [heq] at hrb
        exact outreachInv_of_eq rfl hrb
      next db2 e2 heq =>
        rw [heq] at hrb
        exact outreachInv_of_eq rfl hrb

/-- Witness for the C2 theorem: the empty outreach table satisfies the
invariant and the handler run preserves it. -/
theorem botHandler_preserves_outreach_uniqueness_witness :
    OutreachInv dbW ∧ OutreachInv (botHandler dbW 1 envFail 7).db :=
  have hW : OutreachInv dbW := fun rid tu => by simp [dbW]
  ⟨hW, botHandler_preserves_outreach_uniqueness dbW 1 envFail 7 hW⟩

end InstaScrape

namespace InstaScrape

/-! ## Claim C8: status written before enqueue -/

/-- Claim C8: for an existing, not-already-running account, startAccount
responds 200, emits exactly the event sequence statusWrite-running then
enqueue (the status write strictly precedes the enqueue), appends the job
to the queue, and leaves the database in a state where the account status
is running — so a worker re-reading the account at or after dispatch
observes running, never a stale pre-start status. -/
theorem startAccount_status_before_enqueue (w : World) (id : Nat) (now : Nat) (acct : Account)
    (hfind : findUniqueAccount w.db id = some acct)
    (hnr : acct.status ≠ Status.running) :
    (startAccount w id now).2.1 = .started ∧
    (startAccount w id now).2.2 = [.statusWrite acct.id Status.running, .enqueue acct.id] ∧
    (∃ i j, i < j ∧
      (startAccount w id now).2.2.get? i = some (.statusWrite acct.id Status.running) ∧
      (startAccount w id now).2.2.get? j = some (.enqueue acct.id)) ∧
    (startAccount w id now).1.queue = w.queue ++ [⟨acct.id, acct.username⟩] ∧
    findUniqueAccount (startAccount w id now).1.db id
      = some { acct with status := Status.running, lastActive := now } := by
  have hid : acct.id = id := by
    have h2 : w.db.accounts.find? (fun a => a.id == id) = some acct := hfind
    have := List.find?_some h2
    simpa using this
  simp only [startAccount, hfind]
  rw [if_neg hnr]
  refine ⟨rfl, rfl, ⟨0, 1, by norm_num, rfl, rfl⟩, rfl, ?_⟩
  subst hid
  exact findUnique_update_self w.db acct.id
    (fun a => { a with status := Status.running, lastActive := now }) (fun a => rfl) acct hfind

/-- Idle-account fixture for the C8 witness. -/
def acctIdle : Account := ⟨4, "dave", Status.idle, "m", 0⟩

/-- World fixture for the C8 witness. -/
def wIdle : World := ⟨⟨[acctIdle], [], [], [], 1, 1⟩, []⟩

/-- Witness for the C8 theorem at a concrete idle account. -/
theorem startAccount_status_before_enqueue_witness :
    findUniqueAccount wIdle.db 4 = some acctIdle ∧ acctIdle.status ≠ Status.running ∧
    ((startAccount wIdle 4 5).2.1 = .started ∧
      (startAccount wIdle 4 5).2.2
        = [.statusWrite acctIdle.id Status.running, .enqueue acctIdle.id] ∧
      (∃ i j, i < j ∧
        (startAccount wIdle 4 5).2.2.get? i = some (.statusWrite acctIdle.id Status.running) ∧
        (startAccount wIdle 4 5).2.2.get? j = some (.enqueue acctIdle.id)) ∧
      (startAccount wIdle 4 5).1.queue = wIdle.queue ++ [⟨acctIdle.id, acctIdle.username⟩] ∧
      findUniqueAccount (startAccount wIdle 4 5).1.db 4
        = some { acctIdle with status := Status.running, lastActive := 5 }) :=
  ⟨by decide, by decide,
   startAccount_status_before_enqueue wIdle 4 5 acctIdle (by decide) (by decide)⟩

end InstaScrape
